import Mathlib

/-!
# A verification development for `main.cpp` (SDL2 arcade shooter)

The program is one `main` loop over a handful of local variables.  The embedding
below turns those locals into the record `Game`, every commented block of the
loop body into one function on `Game`, and one loop iteration into `frame`.

Conventions
* C++ `int` values are `Int`.  Signed overflow is undefined behaviour in C++, so
  the model covers the executions without it (coordinates stay at screen scale).
* `Uint32` values are `Nat` below `2^32`; `Uint32` addition is `u32add`, which
  reduces modulo `2^32` exactly as the C++ unsigned arithmetic does.
* C++ `/` and `%` on `int` truncate towards zero: `Int.tdiv` and `Int.tmod`.
* `std::vector<GameObject>` is `List GameObject`; `push_back` appends at the end.
* What the program reads from its environment each iteration (`SDL_GetTicks`,
  the pending events, the keyboard and mouse state, `std::rand`) is the record
  `Input`.
-/

namespace Game2D

/-! ## Constants (main.cpp lines 6-18, 67) -/

def PLAYER_SIZE : Int := 100
def ENEMY_WIDTH : Int := 80
def ENEMY_HEIGHT : Int := 60
def BULLET_WIDTH : Int := 10
def BULLET_HEIGHT : Int := 40

def PLAYER_SPEED : Int := 10
def BULLET_SPEED : Int := 50
def ENEMY_SPEED : Int := 2

def DASH_SPEED : Int := 60
def DASH_DURATION : Nat := 150
def DASH_COOLDOWN : Nat := 500

/-- The local `Uint32 fireCooldown = 150`, never assigned again. -/
def fireCooldown : Nat := 150

/-- Number of `Uint32` values, `2^32`. -/
def UINT32_MOD : Nat := 4294967296

/-- Addition of two `Uint32` values: wraps modulo `2^32`. -/
def u32add (a b : Nat) : Nat := (a + b) % UINT32_MOD

/-! ## SDL values used by the program -/

def SDL_QUIT : Nat := 256
def SDL_KEYDOWN : Nat := 768
def SDLK_ESCAPE : Int := 27
def SDLK_r : Int := 114
def SDL_SCANCODE_A : Nat := 4
def SDL_SCANCODE_D : Nat := 7
def SDL_SCANCODE_S : Nat := 22
def SDL_SCANCODE_W : Nat := 26
def SDL_BUTTON_LEFT : Nat := 1
def SDL_BUTTON_RIGHT : Nat := 3

/-- The SDL header expression `SDL_BUTTON(X)`, that is `1 << (X - 1)`. -/
def SDL_BUTTON (x : Nat) : Nat := 1 <<< (x - 1)

structure SDL_Rect where
  x : Int
  y : Int
  w : Int
  h : Int
deriving DecidableEq

/-- An event as far as the loop looks at it: `e.type` and `e.key.keysym.sym`. -/
structure SDL_Event where
  type : Nat
  sym : Int
deriving DecidableEq

/-- The SDL header routine `SDL_RectEmpty`: a rectangle without area. -/
def SDL_RectEmpty (r : SDL_Rect) : Bool := decide (r.w ≤ 0) || decide (r.h ≤ 0)

/-- Modelled from the spec: `SDL_HasIntersection` is the SDL2 library routine that
`checkCollision` forwards to, and its body is not part of the repository.  Spec 4.1:
"true iff the two axis-aligned rectangles overlap with non-zero area (standard AABB
test: both x-ranges and y-ranges overlap)".  The definition follows the way SDL2
computes it: empty rectangles never intersect; otherwise the x-ranges are clipped
against each other (`Amin`, `Amax`), the result must be non-empty, and likewise
for the y-ranges. -/
def SDL_HasIntersection (a b : SDL_Rect) : Bool :=
  if SDL_RectEmpty a || SDL_RectEmpty b then false
  else
    let xmin := if b.x > a.x then b.x else a.x
    let xmax := if b.x + b.w < a.x + a.w then b.x + b.w else a.x + a.w
    if xmax ≤ xmin then false
    else
      let ymin := if b.y > a.y then b.y else a.y
      let ymax := if b.y + b.h < a.y + a.h then b.y + b.h else a.y + a.h
      if ymax ≤ ymin then false else true

/-! ## Data model (main.cpp lines 20-24, 53-71) -/

structure GameObject where
  rect : SDL_Rect
  active : Bool := true
deriving DecidableEq

/-- The mutable locals of `main`. -/
structure Game where
  player : SDL_Rect
  bullets : List GameObject
  enemies : List GameObject
  lives : Int
  enemySpawnTimer : Int
  quit : Bool
  gameOver : Bool
  lastBulletTime : Nat
  dashing : Bool
  dashStartTime : Nat
  lastDashTime : Nat
deriving DecidableEq

/-- What one loop iteration reads from outside the program. -/
structure Input where
  /-- Result of `SDL_GetTicks()`, a `Uint32`. -/
  currentTime : Nat
  /-- The events `SDL_PollEvent` hands out, in order. -/
  events : List SDL_Event
  /-- The array of `SDL_GetKeyboardState`, indexed by scancode: key held or not. -/
  keys : Nat → Bool
  /-- The button mask of `SDL_GetMouseState`. -/
  mouse : Nat
  /-- What `std::rand()` returns if it is called in this iteration. -/
  rnd : Nat

/-! ## Functions (main.cpp lines 26-37) -/

def checkCollision (a b : SDL_Rect) : Bool := SDL_HasIntersection a b

/-- The function `resetGame`: it assigns `player`, `bullets`, `enemies`, `lives`. -/
def resetGame (s : Game) (screenWidth screenHeight : Int) : Game :=
  { s with
    player := ⟨Int.tdiv screenWidth 2 - Int.tdiv PLAYER_SIZE 2,
               screenHeight - PLAYER_SIZE - 10, PLAYER_SIZE, PLAYER_SIZE⟩
    bullets := []
    enemies := []
    lives := 3 }

/-- The locals as declared on lines 53-71, before `resetGame` is called on line 58.
`player` is declared without a value; `resetGame` assigns it before any read. -/
def declaredLocals : Game :=
  { player := ⟨0, 0, 0, 0⟩
    bullets := []
    enemies := []
    lives := 3
    enemySpawnTimer := 0
    quit := false
    gameOver := false
    lastBulletTime := 0
    dashing := false
    dashStartTime := 0
    lastDashTime := 0 }

/-- The state on entry to the `while` loop. -/
def initGame (W H : Int) : Game := resetGame declaredLocals W H

/-! ## The event loop (main.cpp lines 76-86) -/

/-- Body of the `SDL_PollEvent` loop for one event. -/
def handleEvent (W H : Int) (s : Game) (e : SDL_Event) : Game :=
  let s1 : Game :=
    if e.type = SDL_QUIT ∨ (e.type = SDL_KEYDOWN ∧ e.sym = SDLK_ESCAPE) then
      { s with quit := true }
    else s
  if s1.gameOver = true ∧ e.type = SDL_KEYDOWN ∧ e.sym = SDLK_r then
    resetGame { s1 with gameOver := false } W H
  else s1

def pollEvents (W H : Int) (s : Game) (es : List SDL_Event) : Game :=
  es.foldl (handleEvent W H) s

/-! ## The update block (main.cpp lines 92-179), one function per commented part -/

/-- Lines 93-99, "Dash logic". -/
def dashLogic (s : Game) (currentTime mouse : Nat) : Game :=
  let canDash : Bool := decide (currentTime > u32add s.lastDashTime DASH_COOLDOWN)
  if s.dashing = false ∧ mouse &&& SDL_BUTTON SDL_BUTTON_RIGHT ≠ 0 ∧ canDash = true then
    { s with dashing := true, dashStartTime := currentTime, lastDashTime := currentTime }
  else s

/-- Lines 101-109: the four key tests, applied one after the other. -/
def movePlayer (s : Game) (keys : Nat → Bool) : Game :=
  let moveSpeed : Int := if s.dashing = true then DASH_SPEED else PLAYER_SPEED
  let p0 := s.player
  let p1 := if keys SDL_SCANCODE_A = true then { p0 with x := p0.x - moveSpeed } else p0
  let p2 := if keys SDL_SCANCODE_D = true then { p1 with x := p1.x + moveSpeed } else p1
  let p3 := if keys SDL_SCANCODE_W = true then { p2 with y := p2.y - moveSpeed } else p2
  let p4 := if keys SDL_SCANCODE_S = true then { p3 with y := p3.y + moveSpeed } else p3
  { s with player := p4 }

/-- Lines 111-113, "End dash". -/
def endDash (s : Game) (currentTime : Nat) : Game :=
  if s.dashing = true ∧ currentTime > u32add s.dashStartTime DASH_DURATION then
    { s with dashing := false }
  else s

/-- Lines 115-117, "Clamp". -/
def clampPlayer (W H : Int) (s : Game) : Game :=
  { s with
    player :=
      { s.player with
        x := max 0 (min s.player.x (W - PLAYER_SIZE))
        y := max 0 (min s.player.y (H - PLAYER_SIZE)) } }

/-- Lines 119-126, "Fire bullet". -/
def fireBullet (s : Game) (currentTime mouse : Nat) : Game :=
  if mouse &&& SDL_BUTTON SDL_BUTTON_LEFT ≠ 0 ∧
      currentTime > u32add s.lastBulletTime fireCooldown then
    let bullet : GameObject :=
      { rect := ⟨s.player.x + Int.tdiv PLAYER_SIZE 2 - Int.tdiv BULLET_WIDTH 2, s.player.y,
                 BULLET_WIDTH, BULLET_HEIGHT⟩ }
    { s with bullets := s.bullets ++ [bullet], lastBulletTime := currentTime }
  else s

/-- Lines 128-135, "Spawn enemy". -/
def spawnEnemy (W : Int) (s : Game) (rnd : Nat) : Game :=
  let t := s.enemySpawnTimer + 1
  if t > 60 then
    let enemy : GameObject :=
      { rect := ⟨Int.tmod (rnd : Int) (W - ENEMY_WIDTH), 0, ENEMY_WIDTH, ENEMY_HEIGHT⟩ }
    { s with enemies := s.enemies ++ [enemy], enemySpawnTimer := 0 }
  else { s with enemySpawnTimer := t }

/-- Body of the "Update bullets" loop (lines 140-145) for one bullet. -/
def updateBullet (b : GameObject) : GameObject :=
  if b.active = true then
    let b1 : GameObject := { b with rect := { b.rect with y := b.rect.y - BULLET_SPEED } }
    if b1.rect.y + BULLET_HEIGHT < 0 then { b1 with active := false } else b1
  else b

/-- Lines 137-146, "Update bullets". -/
def updateBullets (s : Game) : Game :=
  { s with bullets := s.bullets.map updateBullet }

/-- The "Update enemies" loop (lines 149-162) over the enemies still to visit,
threading `lives` and `gameOver`. -/
def enemyLoop (H : Int) : List GameObject → Int → Bool → List GameObject × Int × Bool
  | [], lives, gameOver => ([], lives, gameOver)
  | e :: rest, lives, gameOver =>
    if e.active = true then
      let e1 : GameObject := { e with rect := { e.rect with y := e.rect.y + ENEMY_SPEED } }
      if e1.rect.y > H then
        let lives1 := lives - 1
        let gameOver1 : Bool := if lives1 ≤ 0 then true else gameOver
        let r := enemyLoop H rest lives1 gameOver1
        ({ e1 with active := false } :: r.1, r.2.1, r.2.2)
      else
        let r := enemyLoop H rest lives gameOver
        (e1 :: r.1, r.2.1, r.2.2)
    else
      let r := enemyLoop H rest lives gameOver
      (e :: r.1, r.2.1, r.2.2)

/-- Lines 148-162, "Update enemies". -/
def updateEnemies (H : Int) (s : Game) : Game :=
  let r := enemyLoop H s.enemies s.lives s.gameOver
  { s with enemies := r.1, lives := r.2.1, gameOver := r.2.2 }

/-- The inner loop of "Collision" (lines 169-178) for one bullet that was active
when the outer loop reached it.  The bullet flag is not tested again inside the
loop, and there is no `break`. -/
def collideEnemies (b : GameObject) : List GameObject → GameObject × List GameObject
  | [] => (b, [])
  | e :: rest =>
    if e.active = false then
      let r := collideEnemies b rest
      (r.1, e :: r.2)
    else if checkCollision b.rect e.rect = true then
      let r := collideEnemies { b with active := false } rest
      (r.1, { e with active := false } :: r.2)
    else
      let r := collideEnemies b rest
      (r.1, e :: r.2)

/-- The outer loop of "Collision" (lines 165-179): bullets still to visit, and the
enemies as left by the bullets visited so far. -/
def collisionLoop : List GameObject → List GameObject → List GameObject × List GameObject
  | [], enemies => ([], enemies)
  | b :: rest, enemies =>
    if b.active = false then
      let r := collisionLoop rest enemies
      (b :: r.1, r.2)
    else
      let r1 := collideEnemies b enemies
      let r := collisionLoop rest r1.2
      (r1.1 :: r.1, r.2)

/-- Lines 164-179, "Collision". -/
def collisionPass (s : Game) : Game :=
  let r := collisionLoop s.bullets s.enemies
  { s with bullets := r.1, enemies := r.2 }

/-- Lines 92-179: the block guarded by `if (!gameOver)`. -/
def Update (W H : Int) (s : Game) (inp : Input) : Game :=
  let s1 := dashLogic s inp.currentTime inp.mouse
  let s2 := movePlayer s1 inp.keys
  let s3 := endDash s2 inp.currentTime
  let s4 := clampPlayer W H s3
  let s5 := fireBullet s4 inp.currentTime inp.mouse
  let s6 := spawnEnemy W s5 inp.rnd
  let s7 := updateBullets s6
  let s8 := updateEnemies H s7
  collisionPass s8

/-- One iteration of `while (!quit)` (lines 75-220); rendering reads the state only. -/
def frame (W H : Int) (s : Game) (inp : Input) : Game :=
  let s1 := pollEvents W H s inp.events
  if s1.gameOver = false then Update W H s1 inp else s1

/-- States at the end of a loop iteration, and the state on loop entry, for a
screen of `W` by `H`.  An iteration starts only while `quit` is false. -/
inductive Reachable (W H : Int) : Game → Prop
  | init : Reachable W H (initGame W H)
  | step (s : Game) (inp : Input) :
      Reachable W H s → s.quit = false → inp.currentTime < UINT32_MOD →
      Reachable W H (frame W H s inp)

/-! ## Auxiliary definitions used in the statements, and sample states and inputs -/

/-- A game-over state with entities left over, used to exercise the restart. -/
def lostGame : Game :=
  { player := ⟨0, 500, 100, 100⟩
    bullets := [{ rect := ⟨45, 100, 10, 40⟩ }]
    enemies := [{ rect := ⟨10, 602, 80, 60⟩, active := false }]
    lives := 0
    enemySpawnTimer := 17
    quit := false
    gameOver := true
    lastBulletTime := 4000
    dashing := false
    dashStartTime := 3000
    lastDashTime := 3000 }

/-- A bullet whose top edge lies exactly on the bottom edge of `edgeEnemy`. -/
def edgeBullet : GameObject := { rect := ⟨10, 60, 10, 40⟩ }

def edgeEnemy : GameObject := { rect := ⟨0, 0, 80, 60⟩ }

/-- A running game holding just `edgeBullet` and `edgeEnemy`. -/
def edgeContactGame : Game :=
  { player := ⟨350, 490, 100, 100⟩
    bullets := [edgeBullet]
    enemies := [edgeEnemy]
    lives := 3
    enemySpawnTimer := 30
    quit := false
    gameOver := false
    lastBulletTime := 1000
    dashing := false
    dashStartTime := 0
    lastDashTime := 0 }

/-- The player rectangle lies within a `W` by `H` screen and has its fixed size. -/
def PlayerOnScreen (W H : Int) (s : Game) : Prop :=
  0 ≤ s.player.x ∧ s.player.x ≤ W - 100 ∧ 0 ≤ s.player.y ∧ s.player.y ≤ H - 100 ∧
    s.player.w = 100 ∧ s.player.h = 100

/-- An iteration with A and W held, both mouse buttons down, at 16 ms. -/
def sampleInput : Input :=
  { currentTime := 16
    events := []
    keys := fun k => k == SDL_SCANCODE_A || k == SDL_SCANCODE_W
    mouse := 5
    rnd := 12345 }

/-- What the body of the "Update enemies" loop does to one enemy. -/
def advanceEnemy (H : Int) (e : GameObject) : GameObject :=
  if e.active = true then
    let e1 : GameObject := { e with rect := { e.rect with y := e.rect.y + ENEMY_SPEED } }
    if e1.rect.y > H then { e1 with active := false } else e1
  else e

/-- An enemy the loop finds active and, once advanced, below the screen height. -/
def reachesBottom (H : Int) (e : GameObject) : Bool :=
  e.active && decide (e.rect.y + ENEMY_SPEED > H)

/-- Agreement of two states on the enemies, the lives, the game-over flag and the
spawn counter. -/
def SameField (s s1 : Game) : Prop :=
  s1.enemies = s.enemies ∧ s1.lives = s.lives ∧ s1.gameOver = s.gameOver ∧
    s1.enemySpawnTimer = s.enemySpawnTimer

/-- The state in which `Update` reaches "Spawn enemy". -/
def beforeSpawn (W H : Int) (s : Game) (inp : Input) : Game :=
  fireBullet (clampPlayer W H (endDash (movePlayer (dashLogic s inp.currentTime inp.mouse)
    inp.keys) inp.currentTime)) inp.currentTime inp.mouse

/-- The list the "Update enemies" loop of `Update` runs over: the enemies at the
start of `Update`, followed by the enemy spawned in this `Update`, if any. -/
def enemiesToAdvance (W : Int) (s : Game) (inp : Input) : List GameObject :=
  (spawnEnemy W s inp.rnd).enemies

/-- The flag is set exactly when no life is left, and there are at most 3 lives. -/
def LivesInv (s : Game) : Prop := (s.gameOver = true ↔ s.lives ≤ 0) ∧ s.lives ≤ 3

/-- The object `e1` is `e` with the same rectangle and a flag that is set only if
it was set in `e`. -/
def Deactivates (e e1 : GameObject) : Prop :=
  e1.rect = e.rect ∧ (e1.active = true → e.active = true)

/-- A running game with one enemy just above the bottom of a 600-pixel screen and
one further up. -/
def bottomGame : Game :=
  { player := ⟨350, 490, 100, 100⟩
    bullets := []
    enemies := [⟨⟨100, 599, 80, 60⟩, true⟩, ⟨⟨300, 200, 80, 60⟩, true⟩]
    lives := 3
    enemySpawnTimer := 30
    quit := false
    gameOver := false
    lastBulletTime := 0
    dashing := false
    dashStartTime := 0
    lastDashTime := 0 }

/-- Both mouse buttons held at 1100 ms. -/
def cooldownInput : Input :=
  { currentTime := 1100, events := [], keys := fun _ => false, mouse := 5, rnd := 0 }

/-- Left button held at 4294967196 ms, 100 ms before the tick counter wraps. -/
def fireInput1 : Input :=
  { currentTime := 4294967196, events := [], keys := fun _ => false, mouse := 1, rnd := 0 }

/-- Left button still held one frame (16 ms) later. -/
def fireInput2 : Input :=
  { currentTime := 4294967212, events := [], keys := fun _ => false, mouse := 1, rnd := 0 }

/-- Right button held at 4294966896 ms, 400 ms before the tick counter wraps. -/
def dashInput1 : Input :=
  { currentTime := 4294966896, events := [], keys := fun _ => false, mouse := 4, rnd := 0 }

/-- Right button still held 160 ms later. -/
def dashInput2 : Input :=
  { currentTime := 4294967056, events := [], keys := fun _ => false, mouse := 4, rnd := 0 }

/-- Right button still held one more frame (16 ms) later. -/
def dashInput3 : Input :=
  { currentTime := 4294967072, events := [], keys := fun _ => false, mouse := 4, rnd := 0 }

/-- Right button held at 1000 ms. -/
def dashStart : Input :=
  { currentTime := 1000, events := [], keys := fun _ => false, mouse := 4, rnd := 0 }

/-- No button held at 1150 ms. -/
def dashAt150 : Input :=
  { currentTime := 1150, events := [], keys := fun _ => false, mouse := 0, rnd := 0 }

/-- No button held at 1151 ms. -/
def dashAt151 : Input :=
  { currentTime := 1151, events := [], keys := fun _ => false, mouse := 0, rnd := 0 }

/-- The event is the restart key going down. -/
def isRestart (e : SDL_Event) : Prop := e.type = SDL_KEYDOWN ∧ e.sym = SDLK_r

/-- Agreement of two states on every local except `quit`. -/
def SameButQuit (s s1 : Game) : Prop :=
  s1.player = s.player ∧ s1.bullets = s.bullets ∧ s1.enemies = s.enemies ∧
  s1.lives = s.lives ∧ s1.gameOver = s.gameOver ∧ s1.dashing = s.dashing ∧
  s1.dashStartTime = s.dashStartTime ∧ s1.lastDashTime = s.lastDashTime ∧
  s1.lastBulletTime = s.lastBulletTime ∧ s1.enemySpawnTimer = s.enemySpawnTimer

/-- Escape pressed, then the window closed, at 5000 ms with keys and buttons held. -/
def quitInput : Input :=
  { currentTime := 5000
    events := [⟨SDL_KEYDOWN, SDLK_ESCAPE⟩, ⟨SDL_QUIT, 0⟩]
    keys := fun _ => true
    mouse := 5
    rnd := 99 }
/-- The state in which `Update` reaches "Collision". -/
def beforeCollision (W H : Int) (s : Game) (inp : Input) : Game :=
  updateEnemies H (updateBullets (spawnEnemy W (beforeSpawn W H s inp) inp.rnd))

/-- The state in which `Update` reaches "Fire bullet". -/
def beforeFire (W H : Int) (s : Game) (inp : Input) : Game :=
  clampPlayer W H (endDash (movePlayer (dashLogic s inp.currentTime inp.mouse) inp.keys)
    inp.currentTime)

/-- Left button held at 1000 ms. -/
def fireAt1000 : Input :=
  { currentTime := 1000, events := [], keys := fun _ => false, mouse := 1, rnd := 0 }

/-- Left button held at 1150 ms. -/
def fireAt1150 : Input :=
  { currentTime := 1150, events := [], keys := fun _ => false, mouse := 1, rnd := 0 }

/-- Left button held at 1151 ms, D and S held as well. -/
def fireAt1151 : Input :=
  { currentTime := 1151
    events := []
    keys := fun k => k == SDL_SCANCODE_D || k == SDL_SCANCODE_S
    mouse := 1
    rnd := 0 }

/-- A running game whose spawn counter stands at 60. -/
def spawnDueGame : Game :=
  { player := ⟨350, 490, 100, 100⟩
    bullets := []
    enemies := [⟨⟨100, 122, 80, 60⟩, true⟩]
    lives := 3
    enemySpawnTimer := 60
    quit := false
    gameOver := false
    lastBulletTime := 0
    dashing := false
    dashStartTime := 0
    lastDashTime := 0 }

/-- One for a held key, zero otherwise. -/
def held (k : Bool) : Int := if k = true then 1 else 0

/-- The `moveSpeed` of this `Update`: read from `dashing` right after "Dash logic". -/
def moveSpeedOf (s : Game) (inp : Input) : Int :=
  if (dashLogic s inp.currentTime inp.mouse).dashing = true then DASH_SPEED else PLAYER_SPEED

/-- All four movement keys held, no button, at 2000 ms. -/
def allKeysInput : Input :=
  { currentTime := 2000, events := [], keys := fun _ => true, mouse := 0, rnd := 7 }

/-- The loop run over a list of inputs, one iteration each. -/
def runFrames (W H : Int) (s : Game) (inps : List Input) : Game :=
  inps.foldl (frame W H) s

/-- Nothing pressed at `t` ms; `rand` would return 360. -/
def quietInput (t : Nat) : Input :=
  { currentTime := t, events := [], keys := fun _ => false, mouse := 0, rnd := 360 }

/-- Left button held at `t` ms. -/
def shootInput (t : Nat) : Input :=
  { currentTime := t, events := [], keys := fun _ => false, mouse := 1, rnd := 360 }

/-- Left button and W held at `t` ms. -/
def shootUpInput (t : Nat) : Input :=
  { currentTime := t
    events := []
    keys := fun k => k == SDL_SCANCODE_W
    mouse := 1
    rnd := 360 }

/-- Sixty iterations 200 ms apart: a shot in iteration 52, a step up and a second
shot in iteration 53, nothing pressed otherwise. -/
def twoShots : List Input :=
  (List.range 51).map (fun i => quietInput (200 * (i + 1))) ++
    [shootInput 10400, shootUpInput 10600] ++
    (List.range 7).map (fun i => quietInput (200 * (i + 54)))

/-- The enemy is active and its rectangle intersects `r`: the test of the inner
"Collision" loop for a bullet with rectangle `r`. -/
def hit (r : SDL_Rect) (e : GameObject) : Bool := e.active && checkCollision r e.rect

/-- What the inner "Collision" loop for a bullet with rectangle `r` does to one enemy. -/
def hitBy (r : SDL_Rect) (e : GameObject) : GameObject :=
  if hit r e = true then { e with active := false } else e

/-- The state after the sixty iterations of `twoShots` on an 800 by 600 screen. -/
def afterTwoShots : Game := runFrames 800 600 (initGame 800 600) twoShots

/-- A running game with two bullets over one enemy, and a second enemy elsewhere. -/
def twoBulletsGame : Game :=
  { player := ⟨350, 490, 100, 100⟩
    bullets := [⟨⟨395, 20, 10, 40⟩, true⟩, ⟨⟨395, 70, 10, 40⟩, true⟩]
    enemies := [⟨⟨360, 30, 80, 60⟩, true⟩, ⟨⟨100, 152, 80, 60⟩, true⟩]
    lives := 3
    enemySpawnTimer := 14
    quit := false
    gameOver := false
    lastBulletTime := 0
    dashing := false
    dashStartTime := 0
    lastDashTime := 0 }

/-- Reachable states together with the number of `Update`s executed so far: an
iteration executes `Update` exactly when `gameOver` is false after the events. -/
inductive ReachableN (W H : Int) : Nat → Game → Prop
  | init : ReachableN W H 0 (initGame W H)
  | step (s : Game) (inp : Input) (k : Nat) :
      ReachableN W H k s → s.quit = false → inp.currentTime < UINT32_MOD →
      ReachableN W H
        (k + if (pollEvents W H s inp.events).gameOver = false then 1 else 0)
        (frame W H s inp)

/-- Number of entities of the list whose `active` flag is set. -/
def activeCount (l : List GameObject) : Nat := l.countP (fun o => o.active)

/-- The inner "Collision" loop for bullet `b`, counting the enemies it deactivates
while the bullet's own flag is already false at the time of the test. The recursion
is that of `collideEnemies`. -/
def staleHits (b : GameObject) : List GameObject → Nat
  | [] => 0
  | e :: rest =>
    if e.active = false then staleHits b rest
    else if checkCollision b.rect e.rect = true then
      (if b.active = false then 1 else 0) + staleHits { b with active := false } rest
    else staleHits b rest

/-- The inner loops one collision pass executes: every bullet the outer loop finds
active, paired with the enemies as they stand when its turn comes. The recursion is
that of `collisionLoop`. -/
def turns : List GameObject → List GameObject → List (GameObject × List GameObject)
  | [], _ => []
  | b :: rest, enemies =>
    if b.active = false then turns rest enemies
    else (b, enemies) :: turns rest (collideEnemies b enemies).2

/-- Active enemies later in the sequence stand at least 122 pixels above active
enemies earlier in it. -/
def Spaced (es : List GameObject) : Prop :=
  es.Pairwise (fun e1 e2 => e1.active = true → e2.active = true → e2.rect.y + 122 ≤ e1.rect.y)

/-- Enemies are 60 high, spaced, and the active ones stand at `a` or below. -/
def EnemyInv (a : Int) (es : List GameObject) : Prop :=
  Spaced es ∧ (∀ e ∈ es, e.rect.h = 60) ∧ (∀ e ∈ es, e.active = true → a ≤ e.rect.y)

/-- Bullets are 40 high. -/
def BulletInv (bs : List GameObject) : Prop := ∀ b ∈ bs, b.rect.h = 40

/-- The invariant behind the one-for-one collisions: the spawn counter is in range,
bullets are 40 high, and the enemies are spaced with the newest active one at
`2 * (enemySpawnTimer + 1)` or below. -/
def SpawnInv (s : Game) : Prop :=
  0 ≤ s.enemySpawnTimer ∧ s.enemySpawnTimer ≤ 60 ∧ BulletInv s.bullets ∧
    EnemyInv (2 * (s.enemySpawnTimer + 1)) s.enemies

/-- The state in which the collision pass of a loop iteration starts (when the
iteration runs `Update`). -/
def passInput (W H : Int) (s : Game) (inp : Input) : Game :=
  beforeCollision W H (pollEvents W H s inp.events) inp

/-- A state that no run reaches: one bullet over two overlapping enemies. -/
def overlapGame : Game :=
  { player := ⟨350, 490, 100, 100⟩
    bullets := [⟨⟨395, 50, 10, 40⟩, true⟩]
    enemies := [⟨⟨360, 30, 80, 60⟩, true⟩, ⟨⟨380, 60, 80, 60⟩, true⟩]
    lives := 3
    enemySpawnTimer := 14
    quit := false
    gameOver := false
    lastBulletTime := 0
    dashing := false
    dashStartTime := 0
    lastDashTime := 0 }

/-! ## Theorems -/

/-- The intersection test in closed form: both rectangles have area and both
pairs of ranges overlap strictly. -/
theorem SDL_HasIntersection_eq_decide (a b : SDL_Rect) :
    SDL_HasIntersection a b =
      decide (0 < a.w ∧ 0 < a.h ∧ 0 < b.w ∧ 0 < b.h ∧
        a.x < b.x + b.w ∧ b.x < a.x + a.w ∧ a.y < b.y + b.h ∧ b.y < a.y + a.h) := by
  unfold SDL_HasIntersection SDL_RectEmpty
  by_cases h1 : a.w ≤ 0
  · simp [h1]
  by_cases h2 : a.h ≤ 0
  · simp [h1, h2]
  by_cases h3 : b.w ≤ 0
  · simp [h1, h2, h3]
  by_cases h4 : b.h ≤ 0
  · simp [h1, h2, h3, h4]
  simp only [h1, h2, h3, h4, decide_False, Bool.or_self, Bool.false_eq_true, if_false]
  by_cases c1 : b.x > a.x <;> by_cases c2 : b.x + b.w < a.x + a.w <;>
    by_cases c3 : b.y > a.y <;> by_cases c4 : b.y + b.h < a.y + a.h <;>
    simp only [c1, c2, c3, c4, if_true, if_false] <;>
    split_ifs <;> simp <;> omega

theorem tdiv_PLAYER_SIZE : Int.tdiv PLAYER_SIZE 2 = 50 := by decide

theorem tdiv_BULLET_WIDTH : Int.tdiv BULLET_WIDTH 2 = 5 := by decide

theorem resetGame_player (W H : Int) (s : Game) :
    (resetGame s W H).player = ⟨Int.tdiv W 2 - 50, H - 110, 100, 100⟩ := by
  have h : H - PLAYER_SIZE - 10 = H - 110 := by
    simp only [PLAYER_SIZE]
    omega
  simp only [resetGame, tdiv_PLAYER_SIZE, h]
  rfl

/-- C1: after `resetGame`, whatever the state before and whatever the screen size,
`lives = 3`, there are no bullets and no enemies, and the player rectangle is
`(W/2 - 50, H - 110, 100, 100)` with truncating division; the same holds, together
with `gameOver = false`, on entry to the loop and after the restart key is
handled in a game-over state. -/
theorem resetGame_establishes_new_game (W H : Int) (s : Game) :
    ((resetGame s W H).lives = 3 ∧ (resetGame s W H).bullets = [] ∧
      (resetGame s W H).enemies = [] ∧
      (resetGame s W H).player = ⟨Int.tdiv W 2 - 50, H - 110, 100, 100⟩) ∧
    ((initGame W H).lives = 3 ∧ (initGame W H).bullets = [] ∧
      (initGame W H).enemies = [] ∧ (initGame W H).gameOver = false ∧
      (initGame W H).player = ⟨Int.tdiv W 2 - 50, H - 110, 100, 100⟩) ∧
    (s.gameOver = true → ∀ e : SDL_Event, e.type = SDL_KEYDOWN → e.sym = SDLK_r →
      (handleEvent W H s e).lives = 3 ∧ (handleEvent W H s e).bullets = [] ∧
      (handleEvent W H s e).enemies = [] ∧ (handleEvent W H s e).gameOver = false ∧
      (handleEvent W H s e).player = ⟨Int.tdiv W 2 - 50, H - 110, 100, 100⟩) := by
  refine ⟨⟨rfl, rfl, rfl, resetGame_player W H s⟩,
    ⟨rfl, rfl, rfl, rfl, resetGame_player W H _⟩, ?_⟩
  intro hover e hk hr
  have hne : ¬ (e.type = SDL_QUIT ∨ (e.type = SDL_KEYDOWN ∧ e.sym = SDLK_ESCAPE)) := by
    rw [hk, hr]
    decide
  have hev : handleEvent W H s e = resetGame { s with gameOver := false } W H := by
    simp only [handleEvent]
    rw [if_neg hne, if_pos ⟨hover, hk, hr⟩]
  rw [hev]
  exact ⟨rfl, rfl, rfl, rfl, resetGame_player W H _⟩

theorem resetGame_establishes_new_game_witness :
    (handleEvent 800 600 lostGame ⟨SDL_KEYDOWN, SDLK_r⟩).lives = 3 ∧
    (handleEvent 800 600 lostGame ⟨SDL_KEYDOWN, SDLK_r⟩).bullets = [] ∧
    (handleEvent 800 600 lostGame ⟨SDL_KEYDOWN, SDLK_r⟩).enemies = [] ∧
    (handleEvent 800 600 lostGame ⟨SDL_KEYDOWN, SDLK_r⟩).gameOver = false ∧
    (handleEvent 800 600 lostGame ⟨SDL_KEYDOWN, SDLK_r⟩).player =
      ⟨Int.tdiv 800 2 - 50, 600 - 110, 100, 100⟩ :=
  (resetGame_establishes_new_game 800 600 lostGame).2.2 (by decide)
    ⟨SDL_KEYDOWN, SDLK_r⟩ (by decide) (by decide)

/-- C2: for rectangles of positive width and height, `checkCollision a b` is true
exactly when the x-ranges and the y-ranges both overlap strictly (non-zero area). -/
theorem checkCollision_iff_overlap (a b : SDL_Rect)
    (haw : 0 < a.w) (hah : 0 < a.h) (hbw : 0 < b.w) (hbh : 0 < b.h) :
    checkCollision a b = true ↔
      (a.x < b.x + b.w ∧ b.x < a.x + a.w ∧ a.y < b.y + b.h ∧ b.y < a.y + a.h) := by
  unfold checkCollision
  rw [SDL_HasIntersection_eq_decide, decide_eq_true_iff]
  constructor
  · intro h
    exact h.2.2.2.2
  · intro h
    exact ⟨haw, hah, hbw, hbh, h⟩

theorem checkCollision_iff_overlap_witness :
    checkCollision ⟨0, 0, 10, 10⟩ ⟨5, 5, 10, 10⟩ = true ↔
      ((0 : Int) < 5 + 10 ∧ (5 : Int) < 0 + 10 ∧ (0 : Int) < 5 + 10 ∧ (5 : Int) < 0 + 10) :=
  checkCollision_iff_overlap ⟨0, 0, 10, 10⟩ ⟨5, 5, 10, 10⟩
    (by decide) (by decide) (by decide) (by decide)

/-- C3: `checkCollision` is symmetric in its two rectangles, empty ones included. -/
theorem checkCollision_symm (a b : SDL_Rect) :
    checkCollision a b = checkCollision b a := by
  unfold checkCollision
  rw [SDL_HasIntersection_eq_decide, SDL_HasIntersection_eq_decide]
  apply decide_eq_decide.mpr
  constructor <;> intro h <;> omega

/-! ### Edge contact (C4) -/

/-- C4, counterexample: an active bullet `(10, 60, 10, 40)` and an active enemy
`(0, 0, 80, 60)` have overlapping x-ranges and `bullet.y = enemy.y + enemy.h`, yet
`checkCollision` is false and the collision pass leaves both of them active. -/
theorem edge_contact_counterexample :
    edgeBullet.active = true ∧ edgeEnemy.active = true ∧
    edgeBullet.rect.x < edgeEnemy.rect.x + edgeEnemy.rect.w ∧
    edgeEnemy.rect.x < edgeBullet.rect.x + edgeBullet.rect.w ∧
    edgeBullet.rect.y = edgeEnemy.rect.y + edgeEnemy.rect.h ∧
    checkCollision edgeBullet.rect edgeEnemy.rect = false ∧
    (collisionPass edgeContactGame).bullets = [edgeBullet] ∧
    (collisionPass edgeContactGame).enemies = [edgeEnemy] := by
  decide

/-- C4, amended: rectangles that meet exactly at an edge (the bullet top on the
enemy bottom, or any of the three other ways) do not intersect: `checkCollision`
is false, and the collision pass over that bullet and that enemy alone leaves both
active and unchanged. -/
theorem edge_contact_no_collision (rb re : SDL_Rect) (s : Game)
    (hedge : rb.y = re.y + re.h ∨ re.y = rb.y + rb.h ∨
      rb.x = re.x + re.w ∨ re.x = rb.x + rb.w)
    (hb : s.bullets = [⟨rb, true⟩]) (he : s.enemies = [⟨re, true⟩]) :
    checkCollision rb re = false ∧
    (collisionPass s).bullets = [⟨rb, true⟩] ∧
    (collisionPass s).enemies = [⟨re, true⟩] := by
  have hc : checkCollision rb re = false := by
    unfold checkCollision
    rw [SDL_HasIntersection_eq_decide, decide_eq_false_iff_not]
    intro h
    omega
  refine ⟨hc, ?_, ?_⟩ <;>
    simp [collisionPass, collisionLoop, collideEnemies, hb, he, hc]

theorem edge_contact_no_collision_witness :
    checkCollision ⟨10, 60, 10, 40⟩ ⟨0, 0, 80, 60⟩ = false ∧
    (collisionPass edgeContactGame).bullets = [⟨⟨10, 60, 10, 40⟩, true⟩] ∧
    (collisionPass edgeContactGame).enemies = [⟨⟨0, 0, 80, 60⟩, true⟩] :=
  edge_contact_no_collision ⟨10, 60, 10, 40⟩ ⟨0, 0, 80, 60⟩ edgeContactGame
    (Or.inl (by decide)) rfl rfl

/-! ### What each part of the update block leaves alone -/

theorem dashLogic_player (s : Game) (t m : Nat) : (dashLogic s t m).player = s.player := by
  unfold dashLogic
  dsimp only
  split_ifs <;> rfl

theorem endDash_player (s : Game) (t : Nat) : (endDash s t).player = s.player := by
  unfold endDash
  split_ifs <;> rfl

theorem fireBullet_player (s : Game) (t m : Nat) : (fireBullet s t m).player = s.player := by
  unfold fireBullet
  split_ifs <;> rfl

theorem spawnEnemy_player (W : Int) (s : Game) (r : Nat) :
    (spawnEnemy W s r).player = s.player := by
  unfold spawnEnemy
  dsimp only
  split_ifs <;> rfl

theorem movePlayer_size (s : Game) (keys : Nat → Bool) :
    (movePlayer s keys).player.w = s.player.w ∧ (movePlayer s keys).player.h = s.player.h := by
  unfold movePlayer
  dsimp only
  split_ifs <;> exact ⟨rfl, rfl⟩

/-- The player after `Update` is the player after the first four parts. -/
theorem Update_player (W H : Int) (s : Game) (inp : Input) :
    (Update W H s inp).player =
      (clampPlayer W H (endDash (movePlayer (dashLogic s inp.currentTime inp.mouse) inp.keys)
        inp.currentTime)).player := by
  simp only [Update, collisionPass, updateEnemies, updateBullets, spawnEnemy_player,
    fireBullet_player]

/-! ### The player stays on the screen (C5) -/

theorem resetGame_onScreen (W H : Int) (s : Game) (hW : 100 ≤ W) (hH : 110 ≤ H) :
    PlayerOnScreen W H (resetGame s W H) := by
  unfold PlayerOnScreen
  rw [resetGame_player]
  have h := Int.tdiv_eq_ediv (a := W) (b := 2) (by omega) (by omega)
  dsimp only
  rw [h]
  omega

theorem Update_position (W H : Int) (s : Game) (inp : Input) (hW : 100 ≤ W) (hH : 100 ≤ H) :
    0 ≤ (Update W H s inp).player.x ∧ (Update W H s inp).player.x ≤ W - 100 ∧
    0 ≤ (Update W H s inp).player.y ∧ (Update W H s inp).player.y ≤ H - 100 := by
  rw [Update_player]
  simp only [clampPlayer, PLAYER_SIZE]
  omega

theorem Update_size (W H : Int) (s : Game) (inp : Input) :
    (Update W H s inp).player.w = s.player.w ∧ (Update W H s inp).player.h = s.player.h := by
  rw [Update_player]
  have h := movePlayer_size (dashLogic s inp.currentTime inp.mouse) inp.keys
  simp only [clampPlayer, endDash_player, h, dashLogic_player, and_self]

theorem Update_onScreen (W H : Int) (s : Game) (inp : Input) (hW : 100 ≤ W) (hH : 100 ≤ H)
    (hs : PlayerOnScreen W H s) : PlayerOnScreen W H (Update W H s inp) := by
  obtain ⟨-, -, -, -, hw, hh⟩ := hs
  obtain ⟨h1, h2, h3, h4⟩ := Update_position W H s inp hW hH
  obtain ⟨h5, h6⟩ := Update_size W H s inp
  exact ⟨h1, h2, h3, h4, h5.trans hw, h6.trans hh⟩

theorem handleEvent_onScreen (W H : Int) (s : Game) (e : SDL_Event) (hW : 100 ≤ W)
    (hH : 110 ≤ H) (hs : PlayerOnScreen W H s) : PlayerOnScreen W H (handleEvent W H s e) := by
  unfold handleEvent
  dsimp only
  split_ifs
  · exact resetGame_onScreen W H _ hW hH
  · exact hs
  · exact resetGame_onScreen W H _ hW hH
  · exact hs

theorem pollEvents_onScreen (W H : Int) (es : List SDL_Event) (hW : 100 ≤ W) (hH : 110 ≤ H) :
    ∀ s : Game, PlayerOnScreen W H s → PlayerOnScreen W H (pollEvents W H s es) := by
  induction es with
  | nil => intro s hs; exact hs
  | cons e rest ih =>
    intro s hs
    exact ih _ (handleEvent_onScreen W H s e hW hH hs)

theorem frame_onScreen (W H : Int) (s : Game) (inp : Input) (hW : 100 ≤ W) (hH : 110 ≤ H)
    (hs : PlayerOnScreen W H s) : PlayerOnScreen W H (frame W H s inp) := by
  have h1 := pollEvents_onScreen W H inp.events hW hH s hs
  unfold frame
  dsimp only
  split_ifs
  · exact Update_onScreen W H _ inp hW (by omega) h1
  · exact h1

/-- C5: on a screen with `100 ≤ W` and `110 ≤ H` the player rectangle stays on the
screen with its size of 100 by 100: in every reachable state (loop entry and the
end of every loop iteration, whatever the events, keys, mouse buttons and frame
times), right after `resetGame` from any state, and after `Update` from any state
that has the player size right. -/
theorem player_stays_on_screen (W H : Int) (hW : 100 ≤ W) (hH : 110 ≤ H) :
    (∀ s : Game, Reachable W H s →
      0 ≤ s.player.x ∧ s.player.x ≤ W - 100 ∧ 0 ≤ s.player.y ∧ s.player.y ≤ H - 100 ∧
        s.player.w = 100 ∧ s.player.h = 100) ∧
    (∀ s : Game, PlayerOnScreen W H (resetGame s W H)) ∧
    (∀ (s : Game) (inp : Input), s.player.w = 100 → s.player.h = 100 →
      PlayerOnScreen W H (Update W H s inp)) := by
  refine ⟨?_, fun s => resetGame_onScreen W H s hW hH, ?_⟩
  · intro s hs
    have h : PlayerOnScreen W H s := by
      induction hs with
      | init => exact resetGame_onScreen W H _ hW hH
      | step s inp _ _ _ ih => exact frame_onScreen W H s inp hW hH ih
    exact h
  · intro s inp hw hh
    obtain ⟨h1, h2, h3, h4⟩ := Update_position W H s inp hW (by omega)
    obtain ⟨h5, h6⟩ := Update_size W H s inp
    exact ⟨h1, h2, h3, h4, h5.trans hw, h6.trans hh⟩

theorem player_stays_on_screen_witness :
    0 ≤ (frame 800 600 (initGame 800 600) sampleInput).player.x ∧
    (frame 800 600 (initGame 800 600) sampleInput).player.x ≤ 800 - 100 ∧
    0 ≤ (frame 800 600 (initGame 800 600) sampleInput).player.y ∧
    (frame 800 600 (initGame 800 600) sampleInput).player.y ≤ 600 - 100 ∧
    (frame 800 600 (initGame 800 600) sampleInput).player.w = 100 ∧
    (frame 800 600 (initGame 800 600) sampleInput).player.h = 100 :=
  (player_stays_on_screen 800 600 (by decide) (by decide)).1 _
    (Reachable.step _ sampleInput Reachable.init rfl (by decide))

/-! ### The enemy loop -/

theorem enemyLoop_enemies (H : Int) (es : List GameObject) :
    ∀ (lives : Int) (g : Bool), (enemyLoop H es lives g).1 = es.map (advanceEnemy H) := by
  induction es with
  | nil => intro lives g; rfl
  | cons e rest ih =>
    intro lives g
    simp only [enemyLoop, List.map_cons, advanceEnemy]
    split_ifs <;> simp only [ih]

theorem enemyLoop_lives (H : Int) (es : List GameObject) :
    ∀ (lives : Int) (g : Bool),
      (enemyLoop H es lives g).2.1 = lives - (es.countP (reachesBottom H) : Nat) := by
  induction es with
  | nil => intro lives g; simp [enemyLoop]
  | cons e rest ih =>
    intro lives g
    have hc := List.countP_cons (reachesBottom H) e rest
    simp only [enemyLoop]
    split_ifs with h1 h2 h3
    · have hr : reachesBottom H e = true := by simp [reachesBottom, h1]; exact h2
      rw [ih, hc, if_pos hr]
      push_cast
      omega
    · have hr : reachesBottom H e = true := by simp [reachesBottom, h1]; exact h2
      rw [ih, hc, if_pos hr]
      push_cast
      omega
    · have hr : ¬ reachesBottom H e = true := by simp [reachesBottom, h1]; exact not_lt.mp h2
      rw [ih, hc, if_neg hr]
      push_cast
      omega
    · have hr : ¬ reachesBottom H e = true := by simp [reachesBottom, h1]
      rw [ih, hc, if_neg hr]
      push_cast
      omega

theorem enemyLoop_gameOver (H : Int) (es : List GameObject) :
    ∀ (lives : Int) (g : Bool), (g = true ↔ lives ≤ 0) →
      ((enemyLoop H es lives g).2.2 = true ↔ (enemyLoop H es lives g).2.1 ≤ 0) := by
  induction es with
  | nil => intro lives g h; simpa [enemyLoop] using h
  | cons e rest ih =>
    intro lives g h
    simp only [enemyLoop]
    split_ifs with h1 h2 h3
    · exact ih _ _ ⟨fun _ => h3, fun _ => rfl⟩
    · refine ih _ _ ⟨fun hg => ?_, fun h4 => absurd h4 h3⟩
      have := h.1 hg
      omega
    · exact ih _ _ h
    · exact ih _ _ h

/-! ### The parts before "Spawn enemy" leave enemies, lives and the counter alone -/

theorem dashLogic_sameField (s : Game) (t m : Nat) : SameField s (dashLogic s t m) := by
  unfold dashLogic SameField
  dsimp only
  split_ifs <;> exact ⟨rfl, rfl, rfl, rfl⟩

theorem movePlayer_sameField (s : Game) (keys : Nat → Bool) :
    SameField s (movePlayer s keys) := ⟨rfl, rfl, rfl, rfl⟩

theorem endDash_sameField (s : Game) (t : Nat) : SameField s (endDash s t) := by
  unfold endDash SameField
  split_ifs <;> exact ⟨rfl, rfl, rfl, rfl⟩

theorem clampPlayer_sameField (W H : Int) (s : Game) : SameField s (clampPlayer W H s) :=
  ⟨rfl, rfl, rfl, rfl⟩

theorem fireBullet_sameField (s : Game) (t m : Nat) : SameField s (fireBullet s t m) := by
  unfold fireBullet SameField
  split_ifs <;> exact ⟨rfl, rfl, rfl, rfl⟩

theorem SameField.trans {a b c : Game} (h1 : SameField a b) (h2 : SameField b c) :
    SameField a c :=
  ⟨h2.1.trans h1.1, h2.2.1.trans h1.2.1, h2.2.2.1.trans h1.2.2.1, h2.2.2.2.trans h1.2.2.2⟩

theorem beforeSpawn_sameField (W H : Int) (s : Game) (inp : Input) :
    SameField s (beforeSpawn W H s inp) :=
  (((dashLogic_sameField s _ _).trans (movePlayer_sameField _ _)).trans
    ((endDash_sameField _ _).trans (clampPlayer_sameField W H _))).trans
    (fireBullet_sameField _ _ _)

theorem spawnEnemy_congr (W : Int) (s s1 : Game) (r : Nat) (h : SameField s s1) :
    (spawnEnemy W s1 r).enemies = (spawnEnemy W s r).enemies ∧
    (spawnEnemy W s1 r).lives = s.lives ∧ (spawnEnemy W s1 r).gameOver = s.gameOver ∧
    (spawnEnemy W s1 r).enemySpawnTimer = (spawnEnemy W s r).enemySpawnTimer := by
  obtain ⟨h1, h2, h3, h4⟩ := h
  unfold spawnEnemy
  dsimp only
  rw [h4]
  split_ifs <;> simp [h1, h2, h3]

theorem Update_unfold (W H : Int) (s : Game) (inp : Input) :
    Update W H s inp =
      collisionPass (updateEnemies H (updateBullets (spawnEnemy W (beforeSpawn W H s inp)
        inp.rnd))) := rfl

theorem Update_lives (W H : Int) (s : Game) (inp : Input) :
    (Update W H s inp).lives =
      (enemyLoop H (enemiesToAdvance W s inp) s.lives s.gameOver).2.1 := by
  obtain ⟨h1, h2, h3, -⟩ := spawnEnemy_congr W s _ inp.rnd (beforeSpawn_sameField W H s inp)
  simp only [Update_unfold, collisionPass, updateEnemies, updateBullets, h1, h2, h3,
    enemiesToAdvance]

theorem Update_gameOver (W H : Int) (s : Game) (inp : Input) :
    (Update W H s inp).gameOver =
      (enemyLoop H (enemiesToAdvance W s inp) s.lives s.gameOver).2.2 := by
  obtain ⟨h1, h2, h3, -⟩ := spawnEnemy_congr W s _ inp.rnd (beforeSpawn_sameField W H s inp)
  simp only [Update_unfold, collisionPass, updateEnemies, updateBullets, h1, h2, h3,
    enemiesToAdvance]

theorem Update_enemies (W H : Int) (s : Game) (inp : Input) :
    (Update W H s inp).enemies =
      (collisionLoop (updateBullets (spawnEnemy W (beforeSpawn W H s inp) inp.rnd)).bullets
        ((enemiesToAdvance W s inp).map (advanceEnemy H))).2 := by
  obtain ⟨h1, h2, h3, -⟩ := spawnEnemy_congr W s _ inp.rnd (beforeSpawn_sameField W H s inp)
  simp only [Update_unfold, collisionPass, updateEnemies, updateBullets, h1, h2, h3,
    enemiesToAdvance, enemyLoop_enemies]

/-! ### The game-over flag follows the lives (C10) -/

theorem resetGame_livesInv (W H : Int) (s : Game) (h : s.gameOver = false) :
    LivesInv (resetGame s W H) := by
  unfold LivesInv
  have h1 : (resetGame s W H).lives = 3 := rfl
  have h2 : (resetGame s W H).gameOver = s.gameOver := rfl
  rw [h1, h2, h]
  simp

theorem Update_livesInv (W H : Int) (s : Game) (inp : Input) (hs : LivesInv s) :
    LivesInv (Update W H s inp) := by
  unfold LivesInv
  rw [Update_lives, Update_gameOver]
  refine ⟨enemyLoop_gameOver H _ _ _ hs.1, ?_⟩
  rw [enemyLoop_lives]
  have := hs.2
  omega

theorem handleEvent_livesInv (W H : Int) (s : Game) (e : SDL_Event) (hs : LivesInv s) :
    LivesInv (handleEvent W H s e) := by
  unfold handleEvent
  dsimp only
  split_ifs
  · exact resetGame_livesInv W H _ rfl
  · exact hs
  · exact resetGame_livesInv W H _ rfl
  · exact hs

theorem pollEvents_livesInv (W H : Int) (es : List SDL_Event) :
    ∀ s : Game, LivesInv s → LivesInv (pollEvents W H s es) := by
  induction es with
  | nil => intro s hs; exact hs
  | cons e rest ih =>
    intro s hs
    exact ih _ (handleEvent_livesInv W H s e hs)

theorem frame_livesInv (W H : Int) (s : Game) (inp : Input) (hs : LivesInv s) :
    LivesInv (frame W H s inp) := by
  have h1 := pollEvents_livesInv W H inp.events s hs
  unfold frame
  dsimp only
  split_ifs
  · exact Update_livesInv W H _ inp h1
  · exact h1

/-- C10: in every reachable state (loop entry and the end of every loop iteration,
for any sequence of inputs, updates and restarts) `gameOver` is true if and only
if `lives ≤ 0`, and `lives ≤ 3`. -/
theorem gameOver_iff_no_lives (W H : Int) (s : Game) (hs : Reachable W H s) :
    (s.gameOver = true ↔ s.lives ≤ 0) ∧ s.lives ≤ 3 := by
  have h : LivesInv s := by
    induction hs with
    | init => exact resetGame_livesInv W H _ rfl
    | step s inp _ _ _ ih => exact frame_livesInv W H s inp ih
  exact h

theorem gameOver_iff_no_lives_witness :
    ((frame 800 600 (initGame 800 600) sampleInput).gameOver = true ↔
      (frame 800 600 (initGame 800 600) sampleInput).lives ≤ 0) ∧
    (frame 800 600 (initGame 800 600) sampleInput).lives ≤ 3 :=
  gameOver_iff_no_lives 800 600 _
    (Reachable.step _ sampleInput Reachable.init rfl (by decide))

/-! ### The collision pass only ever clears `active` flags -/

theorem Deactivates.refl (e : GameObject) : Deactivates e e := ⟨rfl, id⟩

theorem Deactivates.clear (e : GameObject) : Deactivates e { e with active := false } :=
  ⟨rfl, fun h => by simp at h⟩

theorem Deactivates.chain : ∀ {l1 l2 l3 : List GameObject},
    List.Forall₂ Deactivates l1 l2 → List.Forall₂ Deactivates l2 l3 →
    List.Forall₂ Deactivates l1 l3
  | _, _, _, .nil, .nil => .nil
  | _, _, _, .cons h1 t1, .cons h2 t2 =>
    .cons ⟨h2.1.trans h1.1, fun h => h1.2 (h2.2 h)⟩ (Deactivates.chain t1 t2)

theorem Deactivates.lookup : ∀ {l1 l2 : List GameObject},
    List.Forall₂ Deactivates l1 l2 → ∀ (i : Nat) (e : GameObject), l1[i]? = some e →
    ∃ e1, l2[i]? = some e1 ∧ Deactivates e e1
  | _, _, .nil, i, e, h => by simp at h
  | _, _, .cons h1 _, 0, e, h => by
    simp only [List.getElem?_cons_zero, Option.some.injEq] at h
    subst h
    exact ⟨_, List.getElem?_cons_zero, h1⟩
  | _, _, .cons _ t1, i + 1, e, h => by
    simp only [List.getElem?_cons_succ] at h
    simpa only [List.getElem?_cons_succ] using Deactivates.lookup t1 i e h

theorem collideEnemies_deactivates (es : List GameObject) :
    ∀ b : GameObject, List.Forall₂ Deactivates es (collideEnemies b es).2 := by
  induction es with
  | nil => intro b; exact .nil
  | cons e rest ih =>
    intro b
    simp only [collideEnemies]
    split_ifs
    · exact .cons (Deactivates.refl e) (ih _)
    · exact .cons (Deactivates.clear e) (ih _)
    · exact .cons (Deactivates.refl e) (ih _)

theorem collisionLoop_deactivates (bs : List GameObject) :
    ∀ es : List GameObject, List.Forall₂ Deactivates es (collisionLoop bs es).2 := by
  induction bs with
  | nil =>
    intro es
    exact List.forall₂_same.mpr (fun e _ => Deactivates.refl e)
  | cons b rest ih =>
    intro es
    simp only [collisionLoop]
    split_ifs
    · exact ih es
    · exact Deactivates.chain (collideEnemies_deactivates es b) (ih _)

/-! ### Enemies reaching the bottom (C9) -/

theorem enemiesToAdvance_eq (W : Int) (s : Game) (inp : Input) :
    enemiesToAdvance W s inp = s.enemies ∨
    enemiesToAdvance W s inp =
      s.enemies ++ [⟨⟨Int.tmod (inp.rnd : Int) (W - ENEMY_WIDTH), 0, ENEMY_WIDTH,
        ENEMY_HEIGHT⟩, true⟩] := by
  unfold enemiesToAdvance spawnEnemy
  dsimp only
  split_ifs
  · exact Or.inr rfl
  · exact Or.inl rfl

theorem advanceEnemy_of_reachesBottom (H : Int) (e : GameObject) (ha : e.active = true)
    (hy : e.rect.y + ENEMY_SPEED > H) : (advanceEnemy H e).active = false := by
  unfold advanceEnemy
  rw [if_pos ha]
  dsimp only
  rw [if_pos hy]

theorem advanceEnemy_of_inactive (H : Int) (e : GameObject) (ha : e.active = false) :
    advanceEnemy H e = e := by
  unfold advanceEnemy
  rw [if_neg (by simp [ha])]

/-- C9: in one `Update` on a screen of height `H`, with `es` the list the enemy loop
runs over (the enemies at the start of `Update`, in place, plus the enemy spawned in
this `Update`, if any): `lives` drops by exactly the number of enemies of `es` that
are active and whose `y + 2` exceeds `H`; each such enemy is inactive afterwards;
an inactive enemy is left as it is (so it costs no life, now or later); and when
`2 ≤ H` the enemies counted are exactly those among the enemies at the start of
`Update`. -/
theorem enemy_reaching_bottom (W H : Int) (s : Game) (inp : Input) :
    (Update W H s inp).lives =
      s.lives - ((enemiesToAdvance W s inp).countP (reachesBottom H) : Nat) ∧
    (∀ (i : Nat) (e : GameObject), (enemiesToAdvance W s inp)[i]? = some e →
      e.active = true → e.rect.y + ENEMY_SPEED > H →
      ∃ e1, (Update W H s inp).enemies[i]? = some e1 ∧ e1.active = false) ∧
    (∀ (i : Nat) (e : GameObject), (enemiesToAdvance W s inp)[i]? = some e →
      e.active = false → (Update W H s inp).enemies[i]? = some e) ∧
    (∀ (i : Nat) (e : GameObject), s.enemies[i]? = some e →
      (enemiesToAdvance W s inp)[i]? = some e) ∧
    (ENEMY_SPEED ≤ H →
      (enemiesToAdvance W s inp).countP (reachesBottom H) =
        s.enemies.countP (reachesBottom H)) := by
  refine ⟨?_, ?_, ?_, ?_, ?_⟩
  · rw [Update_lives, enemyLoop_lives]
  · intro i e hi ha hy
    have hm : ((enemiesToAdvance W s inp).map (advanceEnemy H))[i]? =
        some (advanceEnemy H e) := by
      rw [List.getElem?_map, hi]
      rfl
    obtain ⟨e1, h1, h2⟩ := Deactivates.lookup (collisionLoop_deactivates _ _) i _ hm
    refine ⟨e1, by rw [Update_enemies]; exact h1, ?_⟩
    have hf := advanceEnemy_of_reachesBottom H e ha hy
    cases hact : e1.active with
    | false => rfl
    | true =>
      have := h2.2 hact
      rw [hf] at this
      exact absurd this (by simp)
  · intro i e hi ha
    have hm : ((enemiesToAdvance W s inp).map (advanceEnemy H))[i]? = some e := by
      rw [List.getElem?_map, hi]
      simp only [Option.map_some', advanceEnemy_of_inactive H e ha]
    obtain ⟨e1, h1, h2⟩ := Deactivates.lookup (collisionLoop_deactivates _ _) i _ hm
    rw [Update_enemies, h1]
    have hact : e1.active = false := by
      cases hact : e1.active with
      | false => rfl
      | true =>
        have := h2.2 hact
        rw [ha] at this
        exact absurd this (by simp)
    cases e1 with
    | mk r1 a1 =>
      cases e with
      | mk r a =>
        simp only at hact ha
        have hr : r1 = r := h2.1
        rw [hact, ha, hr]
  · intro i e hi
    rcases enemiesToAdvance_eq W s inp with h | h
    · rw [h]
      exact hi
    · rw [h, List.getElem?_append_left (List.getElem?_eq_some.mp hi).1]
      exact hi
  · intro hH
    rcases enemiesToAdvance_eq W s inp with h | h
    · rw [h]
    · rw [h, List.countP_append]
      have : reachesBottom H ⟨⟨Int.tmod (inp.rnd : Int) (W - ENEMY_WIDTH), 0, ENEMY_WIDTH,
          ENEMY_HEIGHT⟩, true⟩ = false := by
        simp only [reachesBottom, Bool.true_and, decide_eq_false_iff_not]
        omega
      simp [List.countP_cons, this]

theorem enemy_reaching_bottom_witness :
    (Update 800 600 bottomGame sampleInput).lives =
      bottomGame.lives -
        ((enemiesToAdvance 800 bottomGame sampleInput).countP (reachesBottom 600) : Nat) ∧
    ∃ e1, (Update 800 600 bottomGame sampleInput).enemies[0]? = some e1 ∧
      e1.active = false :=
  ⟨(enemy_reaching_bottom 800 600 bottomGame sampleInput).1,
    (enemy_reaching_bottom 800 600 bottomGame sampleInput).2.1 0 ⟨⟨100, 599, 80, 60⟩, true⟩
      (by decide) rfl (by decide)⟩

/-! ### Timers: what `Update` does to the dash and fire state -/

theorem fireBullet_dash (s : Game) (t m : Nat) :
    (fireBullet s t m).dashing = s.dashing ∧
    (fireBullet s t m).dashStartTime = s.dashStartTime ∧
    (fireBullet s t m).lastDashTime = s.lastDashTime := by
  unfold fireBullet
  split_ifs <;> exact ⟨rfl, rfl, rfl⟩

theorem spawnEnemy_dash (W : Int) (s : Game) (r : Nat) :
    (spawnEnemy W s r).dashing = s.dashing ∧
    (spawnEnemy W s r).dashStartTime = s.dashStartTime ∧
    (spawnEnemy W s r).lastDashTime = s.lastDashTime ∧
    (spawnEnemy W s r).bullets = s.bullets ∧
    (spawnEnemy W s r).lastBulletTime = s.lastBulletTime := by
  unfold spawnEnemy
  dsimp only
  split_ifs <;> exact ⟨rfl, rfl, rfl, rfl, rfl⟩

/-- The dash state after `Update` is the dash state after "Dash logic" and
"End dash". -/
theorem Update_dash (W H : Int) (s : Game) (inp : Input) :
    (Update W H s inp).dashing =
      (endDash (dashLogic s inp.currentTime inp.mouse) inp.currentTime).dashing ∧
    (Update W H s inp).dashStartTime =
      (dashLogic s inp.currentTime inp.mouse).dashStartTime ∧
    (Update W H s inp).lastDashTime =
      (dashLogic s inp.currentTime inp.mouse).lastDashTime := by
  obtain ⟨a1, a2, a3, -, -⟩ := spawnEnemy_dash W (beforeSpawn W H s inp) inp.rnd
  obtain ⟨b1, b2, b3⟩ := fireBullet_dash (clampPlayer W H (endDash (movePlayer
    (dashLogic s inp.currentTime inp.mouse) inp.keys) inp.currentTime)) inp.currentTime
    inp.mouse
  have c : ∀ (g : Game) (keys : Nat → Bool) (t : Nat),
      (endDash (movePlayer g keys) t).dashing = (endDash g t).dashing ∧
      (endDash (movePlayer g keys) t).dashStartTime = g.dashStartTime ∧
      (endDash (movePlayer g keys) t).lastDashTime = g.lastDashTime := by
    intro g keys t
    unfold endDash movePlayer
    dsimp only
    split_ifs <;> exact ⟨rfl, rfl, rfl⟩
  obtain ⟨c1, c2, c3⟩ := c (dashLogic s inp.currentTime inp.mouse) inp.keys inp.currentTime
  exact ⟨a1.trans (b1.trans c1), a2.trans (b2.trans c2), a3.trans (b3.trans c3)⟩

theorem collideEnemies_fst (es : List GameObject) :
    ∀ b : GameObject, Deactivates b (collideEnemies b es).1 := by
  induction es with
  | nil => intro b; exact Deactivates.refl b
  | cons e rest ih =>
    intro b
    simp only [collideEnemies]
    split_ifs
    · exact ih b
    · have h := ih { b with active := false }
      exact ⟨h.1, fun h1 => absurd (h.2 h1) (by simp)⟩
    · exact ih b

theorem collisionLoop_bullets (bs : List GameObject) :
    ∀ es : List GameObject, List.Forall₂ Deactivates bs (collisionLoop bs es).1 := by
  induction bs with
  | nil => intro es; exact .nil
  | cons b rest ih =>
    intro es
    simp only [collisionLoop]
    split_ifs
    · exact .cons (Deactivates.refl b) (ih es)
    · exact .cons (collideEnemies_fst es b) (ih _)

/-- The bullets after `Update`: as many as "Fire bullet" left, and the fire timer
as "Fire bullet" left it. -/
theorem Update_fire (W H : Int) (s : Game) (inp : Input) :
    (Update W H s inp).bullets.length = (beforeSpawn W H s inp).bullets.length ∧
    (Update W H s inp).lastBulletTime = (beforeSpawn W H s inp).lastBulletTime := by
  obtain ⟨-, -, -, a4, a5⟩ := spawnEnemy_dash W (beforeSpawn W H s inp) inp.rnd
  constructor
  · simp only [Update_unfold, collisionPass, updateEnemies, updateBullets]
    rw [← (collisionLoop_bullets _ _).length_eq, List.length_map, a4]
  · simp only [Update_unfold, collisionPass, updateEnemies, updateBullets]
    exact a5

/-- The state in which `Update` reaches "Fire bullet" has the bullets and the fire
timer of the start of `Update`. -/
theorem beforeFire_bullets (W H : Int) (s : Game) (inp : Input) :
    (clampPlayer W H (endDash (movePlayer (dashLogic s inp.currentTime inp.mouse) inp.keys)
      inp.currentTime)).bullets = s.bullets ∧
    (clampPlayer W H (endDash (movePlayer (dashLogic s inp.currentTime inp.mouse) inp.keys)
      inp.currentTime)).lastBulletTime = s.lastBulletTime := by
  have h1 : ∀ (g : Game) (t m : Nat), (dashLogic g t m).bullets = g.bullets ∧
      (dashLogic g t m).lastBulletTime = g.lastBulletTime := by
    intro g t m
    unfold dashLogic
    dsimp only
    split_ifs <;> exact ⟨rfl, rfl⟩
  have h2 : ∀ (g : Game) (t : Nat), (endDash g t).bullets = g.bullets ∧
      (endDash g t).lastBulletTime = g.lastBulletTime := by
    intro g t
    unfold endDash
    split_ifs <;> exact ⟨rfl, rfl⟩
  obtain ⟨a1, a2⟩ := h1 s inp.currentTime inp.mouse
  obtain ⟨b1, b2⟩ := h2 (movePlayer (dashLogic s inp.currentTime inp.mouse) inp.keys)
    inp.currentTime
  exact ⟨b1.trans a1, b2.trans a2⟩

theorem u32add_of_lt (a b : Nat) (h : a + b < UINT32_MOD) : u32add a b = a + b :=
  Nat.mod_eq_of_lt h

/-! ### Fire cooldown (C6) -/

/-- As long as `lastBulletTime + 150` does not wrap, an `Update` at a frame time up
to `lastBulletTime + 150` appends no bullet and keeps the fire timer. -/
theorem fire_cooldown_without_wraparound (W H : Int) (s : Game) (inp : Input)
    (hw : s.lastBulletTime + fireCooldown < UINT32_MOD)
    (ht : inp.currentTime ≤ s.lastBulletTime + fireCooldown) :
    (Update W H s inp).bullets.length = s.bullets.length ∧
    (Update W H s inp).lastBulletTime = s.lastBulletTime := by
  obtain ⟨h1, h2⟩ := Update_fire W H s inp
  obtain ⟨h3, h4⟩ := beforeFire_bullets W H s inp
  have hno : beforeSpawn W H s inp = clampPlayer W H (endDash (movePlayer
      (dashLogic s inp.currentTime inp.mouse) inp.keys) inp.currentTime) := by
    unfold beforeSpawn fireBullet
    rw [h4, u32add_of_lt _ _ hw, if_neg]
    intro hc
    omega
  rw [h1, h2, hno, h3, h4]
  exact ⟨rfl, rfl⟩

theorem fire_cooldown_without_wraparound_witness :
    (Update 800 600 edgeContactGame cooldownInput).bullets.length =
      edgeContactGame.bullets.length ∧
    (Update 800 600 edgeContactGame cooldownInput).lastBulletTime =
      edgeContactGame.lastBulletTime :=
  fire_cooldown_without_wraparound 800 600 edgeContactGame cooldownInput
    (by decide) (by decide)

/-- C6, the code at the failing input: an `Update` at `t = 4294967196` fires (so
`lastBulletTime = t`), and the `Update` 16 ms later, at `t + 16 < t + 150`, fires
again, because `lastBulletTime + 150` has wrapped round to 50. -/
theorem fire_cooldown_wraparound :
    (Update 800 600 (initGame 800 600) fireInput1).lastBulletTime = 4294967196 ∧
    (Update 800 600 (initGame 800 600) fireInput1).bullets.length = 1 ∧
    fireInput1.currentTime ≤ fireInput2.currentTime ∧
    fireInput2.currentTime < fireInput1.currentTime + 150 ∧
    fireInput2.currentTime < UINT32_MOD ∧
    u32add 4294967196 fireCooldown = 50 ∧
    (Update 800 600 (Update 800 600 (initGame 800 600) fireInput1) fireInput2).bullets.length
      = 2 := by
  decide

/-! ### Dash cooldown (C7) -/

/-- As long as `lastDashTime + 500` does not wrap, an `Update` at a frame time up to
`lastDashTime + 500` starts no dash: both dash timers keep their values. -/
theorem dash_cooldown_without_wraparound (W H : Int) (s : Game) (inp : Input)
    (hw : s.lastDashTime + DASH_COOLDOWN < UINT32_MOD)
    (ht : inp.currentTime ≤ s.lastDashTime + DASH_COOLDOWN) :
    (Update W H s inp).dashStartTime = s.dashStartTime ∧
    (Update W H s inp).lastDashTime = s.lastDashTime := by
  obtain ⟨-, h2, h3⟩ := Update_dash W H s inp
  have hno : dashLogic s inp.currentTime inp.mouse = s := by
    unfold dashLogic
    dsimp only
    rw [u32add_of_lt _ _ hw, if_neg]
    intro hc
    have := of_decide_eq_true hc.2.2
    omega
  rw [h2, h3, hno]
  exact ⟨rfl, rfl⟩

theorem dash_cooldown_without_wraparound_witness :
    (Update 800 600 edgeContactGame sampleInput).dashStartTime =
      edgeContactGame.dashStartTime ∧
    (Update 800 600 edgeContactGame sampleInput).lastDashTime =
      edgeContactGame.lastDashTime :=
  dash_cooldown_without_wraparound 800 600 edgeContactGame sampleInput
    (by decide) (by decide)

/-- C7, the code at the failing input: an `Update` at `t = 4294966896` starts a dash
(`dashing`, `dashStartTime = lastDashTime = t`); the `Update` at `t + 160` ends it;
and the `Update` at `t + 176 < t + 500` starts a new dash, because
`lastDashTime + 500` has wrapped round to 100. -/
theorem dash_cooldown_wraparound :
    (Update 800 600 (initGame 800 600) dashInput1).dashing = true ∧
    (Update 800 600 (initGame 800 600) dashInput1).dashStartTime = 4294966896 ∧
    (Update 800 600 (initGame 800 600) dashInput1).lastDashTime = 4294966896 ∧
    (Update 800 600 (Update 800 600 (initGame 800 600) dashInput1) dashInput2).dashing
      = false ∧
    dashInput1.currentTime ≤ dashInput3.currentTime ∧
    dashInput3.currentTime < dashInput1.currentTime + 500 ∧
    dashInput3.currentTime < UINT32_MOD ∧
    u32add 4294966896 DASH_COOLDOWN = 100 ∧
    (Update 800 600 (Update 800 600 (Update 800 600 (initGame 800 600) dashInput1)
      dashInput2) dashInput3).dashing = true ∧
    (Update 800 600 (Update 800 600 (Update 800 600 (initGame 800 600) dashInput1)
      dashInput2) dashInput3).dashStartTime = 4294967072 ∧
    (Update 800 600 (Update 800 600 (Update 800 600 (initGame 800 600) dashInput1)
      dashInput2) dashInput3).lastDashTime = 4294967072 := by
  decide

/-! ### Dash expiry (C8) -/

/-- C8, counterexample: the `Update` at `t = 1000` starts a dash, and after the
`Update` executed at `t + 150 = 1150` the flag `dashing` is still true. -/
theorem dash_expiry_counterexample :
    (initGame 800 600).dashing = false ∧
    (Update 800 600 (initGame 800 600) dashStart).dashing = true ∧
    (Update 800 600 (initGame 800 600) dashStart).dashStartTime = 1000 ∧
    dashAt150.currentTime ≥ 1000 + 150 ∧
    (Update 800 600 (Update 800 600 (initGame 800 600) dashStart) dashAt150).dashing
      = true := by
  decide

/-- C8, amended: for a dash in progress that was started at `t = dashStartTime` with
`t + 150 < 2^32`, an `Update` executed at a frame time `t1 ≤ t + 150` leaves
`dashing` true (and the dash timers as they are), and an `Update` executed at a
frame time `t1 > t + 150` leaves `dashing` false; and once `dashing` is false, an
`Update` in which "Dash logic" starts no dash leaves it false. -/
theorem dash_expiry (W H : Int) (s : Game) (inp : Input) :
    (s.dashing = true → s.dashStartTime + DASH_DURATION < UINT32_MOD →
      (inp.currentTime ≤ s.dashStartTime + DASH_DURATION →
        (Update W H s inp).dashing = true ∧
        (Update W H s inp).dashStartTime = s.dashStartTime ∧
        (Update W H s inp).lastDashTime = s.lastDashTime) ∧
      (s.dashStartTime + DASH_DURATION < inp.currentTime →
        (Update W H s inp).dashing = false)) ∧
    (s.dashing = false → dashLogic s inp.currentTime inp.mouse = s →
      (Update W H s inp).dashing = false) := by
  obtain ⟨h1, h2, h3⟩ := Update_dash W H s inp
  constructor
  · intro hd hw
    have hno : dashLogic s inp.currentTime inp.mouse = s := by
      unfold dashLogic
      dsimp only
      rw [if_neg]
      intro hc
      rw [hd] at hc
      exact absurd hc.1 (by simp)
    rw [h1, h2, h3, hno]
    unfold endDash
    rw [u32add_of_lt _ _ hw]
    constructor
    · intro ht
      rw [if_neg (by intro hc; omega)]
      exact ⟨hd, rfl, rfl⟩
    · intro ht
      rw [if_pos ⟨hd, ht⟩]
  · intro hd hno
    rw [h1, hno]
    unfold endDash
    rw [if_neg (by intro hc; rw [hd] at hc; exact absurd hc.1 (by simp))]
    exact hd

theorem dash_expiry_witness :
    ((Update 800 600 (Update 800 600 (initGame 800 600) dashStart) dashAt150).dashing
        = true ∧
      (Update 800 600 (Update 800 600 (initGame 800 600) dashStart) dashAt150).dashStartTime
        = (Update 800 600 (initGame 800 600) dashStart).dashStartTime ∧
      (Update 800 600 (Update 800 600 (initGame 800 600) dashStart) dashAt150).lastDashTime
        = (Update 800 600 (initGame 800 600) dashStart).lastDashTime) ∧
    (Update 800 600 (Update 800 600 (initGame 800 600) dashStart) dashAt151).dashing
      = false ∧
    (Update 800 600 (initGame 800 600) dashAt151).dashing = false :=
  ⟨((dash_expiry 800 600 (Update 800 600 (initGame 800 600) dashStart) dashAt150).1
      (by decide) (by decide)).1 (by decide),
    ((dash_expiry 800 600 (Update 800 600 (initGame 800 600) dashStart) dashAt151).1
      (by decide) (by decide)).2 (by decide),
    (dash_expiry 800 600 (initGame 800 600) dashAt151).2 (by decide) (by decide)⟩

/-! ### Game over freezes the state (C11) -/

theorem handleEvent_noRestart (W H : Int) (s : Game) (e : SDL_Event) (h : ¬ isRestart e) :
    SameButQuit s (handleEvent W H s e) := by
  have hno : ∀ g : Game, ¬ (g.gameOver = true ∧ e.type = SDL_KEYDOWN ∧ e.sym = SDLK_r) :=
    fun g hc => h ⟨hc.2.1, hc.2.2⟩
  unfold handleEvent
  dsimp only
  rw [if_neg (hno _)]
  split_ifs <;> exact ⟨rfl, rfl, rfl, rfl, rfl, rfl, rfl, rfl, rfl, rfl⟩

theorem SameButQuit.compose {a b c : Game} (h1 : SameButQuit a b) (h2 : SameButQuit b c) :
    SameButQuit a c := by
  obtain ⟨a1, a2, a3, a4, a5, a6, a7, a8, a9, a10⟩ := h1
  obtain ⟨b1, b2, b3, b4, b5, b6, b7, b8, b9, b10⟩ := h2
  exact ⟨b1.trans a1, b2.trans a2, b3.trans a3, b4.trans a4, b5.trans a5, b6.trans a6,
    b7.trans a7, b8.trans a8, b9.trans a9, b10.trans a10⟩

theorem pollEvents_noRestart (W H : Int) (es : List SDL_Event) :
    ∀ s : Game, (∀ e ∈ es, ¬ isRestart e) → SameButQuit s (pollEvents W H s es) := by
  induction es with
  | nil => intro s _; exact ⟨rfl, rfl, rfl, rfl, rfl, rfl, rfl, rfl, rfl, rfl⟩
  | cons e rest ih =>
    intro s h
    have h1 := handleEvent_noRestart W H s e (h e (List.mem_cons_self e rest))
    have h2 := ih (handleEvent W H s e) (fun e1 he1 => h e1 (List.mem_cons_of_mem e he1))
    exact h1.compose h2

/-- C11: from a state with `gameOver = true`, a loop iteration whose events contain
no key-down of R leaves `player`, `bullets`, `enemies`, `lives`, `gameOver`, `dashing`,
`dashStartTime`, `lastDashTime`, `lastBulletTime` and `enemySpawnTimer` unchanged, for
every frame time, key state, mouse mask and `rand` value. -/
theorem gameOver_skips_update (W H : Int) (s : Game) (inp : Input)
    (hover : s.gameOver = true)
    (hno : ∀ e ∈ inp.events, ¬ (e.type = SDL_KEYDOWN ∧ e.sym = SDLK_r)) :
    (frame W H s inp).player = s.player ∧ (frame W H s inp).bullets = s.bullets ∧
    (frame W H s inp).enemies = s.enemies ∧ (frame W H s inp).lives = s.lives ∧
    (frame W H s inp).gameOver = s.gameOver ∧ (frame W H s inp).dashing = s.dashing ∧
    (frame W H s inp).dashStartTime = s.dashStartTime ∧
    (frame W H s inp).lastDashTime = s.lastDashTime ∧
    (frame W H s inp).lastBulletTime = s.lastBulletTime ∧
    (frame W H s inp).enemySpawnTimer = s.enemySpawnTimer := by
  have h := pollEvents_noRestart W H inp.events s hno
  have hg : ¬ (pollEvents W H s inp.events).gameOver = false := by
    rw [h.2.2.2.2.1, hover]
    simp
  have hf : frame W H s inp = pollEvents W H s inp.events := by
    unfold frame
    dsimp only
    rw [if_neg hg]
  rw [hf]
  exact h

theorem gameOver_skips_update_witness :
    (frame 800 600 lostGame quitInput).player = lostGame.player ∧
    (frame 800 600 lostGame quitInput).bullets = lostGame.bullets ∧
    (frame 800 600 lostGame quitInput).enemies = lostGame.enemies ∧
    (frame 800 600 lostGame quitInput).lives = lostGame.lives ∧
    (frame 800 600 lostGame quitInput).gameOver = lostGame.gameOver ∧
    (frame 800 600 lostGame quitInput).dashing = lostGame.dashing ∧
    (frame 800 600 lostGame quitInput).dashStartTime = lostGame.dashStartTime ∧
    (frame 800 600 lostGame quitInput).lastDashTime = lostGame.lastDashTime ∧
    (frame 800 600 lostGame quitInput).lastBulletTime = lostGame.lastBulletTime ∧
    (frame 800 600 lostGame quitInput).enemySpawnTimer = lostGame.enemySpawnTimer :=
  gameOver_skips_update 800 600 lostGame quitInput (by decide) (by decide)

/-! ### The lists after `Update` -/

theorem Update_eq_collisionPass (W H : Int) (s : Game) (inp : Input) :
    Update W H s inp = collisionPass (beforeCollision W H s inp) := rfl

theorem beforeSpawn_eq (W H : Int) (s : Game) (inp : Input) :
    beforeSpawn W H s inp = fireBullet (beforeFire W H s inp) inp.currentTime inp.mouse := rfl

theorem beforeCollision_enemies (W H : Int) (s : Game) (inp : Input) :
    (beforeCollision W H s inp).enemies = (enemiesToAdvance W s inp).map (advanceEnemy H) := by
  obtain ⟨h1, h2, h3, -⟩ := spawnEnemy_congr W s _ inp.rnd (beforeSpawn_sameField W H s inp)
  simp only [beforeCollision, updateEnemies, updateBullets, h1, enemiesToAdvance,
    enemyLoop_enemies]

theorem beforeCollision_bullets (W H : Int) (s : Game) (inp : Input) :
    (beforeCollision W H s inp).bullets = (beforeSpawn W H s inp).bullets.map updateBullet := by
  obtain ⟨-, -, -, a4, -⟩ := spawnEnemy_dash W (beforeSpawn W H s inp) inp.rnd
  simp only [beforeCollision, updateEnemies, updateBullets, a4]

theorem Update_bullets (W H : Int) (s : Game) (inp : Input) :
    (Update W H s inp).bullets =
      (collisionLoop ((beforeSpawn W H s inp).bullets.map updateBullet)
        ((enemiesToAdvance W s inp).map (advanceEnemy H))).1 := by
  rw [Update_eq_collisionPass, ← beforeCollision_bullets, ← beforeCollision_enemies]
  rfl

theorem Update_enemies_eq (W H : Int) (s : Game) (inp : Input) :
    (Update W H s inp).enemies =
      (collisionLoop ((beforeSpawn W H s inp).bullets.map updateBullet)
        ((enemiesToAdvance W s inp).map (advanceEnemy H))).2 := by
  rw [Update_eq_collisionPass, ← beforeCollision_bullets, ← beforeCollision_enemies]
  rfl

theorem Update_enemySpawnTimer (W H : Int) (s : Game) (inp : Input) :
    (Update W H s inp).enemySpawnTimer = (spawnEnemy W s inp.rnd).enemySpawnTimer := by
  obtain ⟨-, -, -, h4⟩ := spawnEnemy_congr W s _ inp.rnd (beforeSpawn_sameField W H s inp)
  exact h4

theorem Update_enemies_length (W H : Int) (s : Game) (inp : Input) :
    (Update W H s inp).enemies.length = (enemiesToAdvance W s inp).length := by
  rw [Update_enemies_eq, ← (collisionLoop_deactivates _ _).length_eq, List.length_map]

theorem Update_player_eq (W H : Int) (s : Game) (inp : Input) :
    (Update W H s inp).player = (beforeFire W H s inp).player :=
  Update_player W H s inp

/-! ### Enemy spawn (C12) -/

theorem rand_mod_range (r : Nat) (m : Int) (hm : 0 < m) :
    0 ≤ Int.tmod (r : Int) m ∧ Int.tmod (r : Int) m < m := by
  rw [Int.tmod_eq_emod (Int.ofNat_nonneg r) (le_of_lt hm)]
  exact ⟨Int.emod_nonneg _ (ne_of_gt hm), Int.emod_lt_of_pos _ hm⟩

/-- C12: on a screen of width `W > 80`, if the spawn counter plus one exceeds 60 then
"Spawn enemy" appends exactly one enemy at the end of the enemy sequence, active,
with rectangle `(x, 0, 80, 60)` where `0 ≤ x < W - 80`, and sets the counter to 0, so
that `Update` ends with one enemy more and the counter at 0; otherwise "Spawn enemy"
leaves the enemies as they are and `Update` ends with as many enemies and the counter
one higher. -/
theorem enemy_spawn (W H : Int) (s : Game) (inp : Input) (hW : 80 < W) :
    (s.enemySpawnTimer + 1 > 60 →
      ∃ x : Int, 0 ≤ x ∧ x < W - 80 ∧
        (spawnEnemy W s inp.rnd).enemies = s.enemies ++ [⟨⟨x, 0, 80, 60⟩, true⟩] ∧
        (spawnEnemy W s inp.rnd).enemySpawnTimer = 0 ∧
        (Update W H s inp).enemies.length = s.enemies.length + 1 ∧
        (Update W H s inp).enemySpawnTimer = 0) ∧
    (¬ s.enemySpawnTimer + 1 > 60 →
      (spawnEnemy W s inp.rnd).enemies = s.enemies ∧
      (spawnEnemy W s inp.rnd).enemySpawnTimer = s.enemySpawnTimer + 1 ∧
      (Update W H s inp).enemies.length = s.enemies.length ∧
      (Update W H s inp).enemySpawnTimer = s.enemySpawnTimer + 1) := by
  constructor
  · intro h
    have hr := rand_mod_range inp.rnd (W - ENEMY_WIDTH) (by simp only [ENEMY_WIDTH]; omega)
    have he : (spawnEnemy W s inp.rnd).enemies =
        s.enemies ++ [⟨⟨Int.tmod (inp.rnd : Int) (W - ENEMY_WIDTH), 0, 80, 60⟩, true⟩] := by
      unfold spawnEnemy
      dsimp only
      rw [if_pos h]
      rfl
    have ht : (spawnEnemy W s inp.rnd).enemySpawnTimer = 0 := by
      unfold spawnEnemy
      dsimp only
      rw [if_pos h]
    refine ⟨Int.tmod (inp.rnd : Int) (W - ENEMY_WIDTH), hr.1, hr.2, he, ht, ?_, ?_⟩
    · rw [Update_enemies_length, enemiesToAdvance, he, List.length_append]
      rfl
    · rw [Update_enemySpawnTimer, ht]
  · intro h
    have he : (spawnEnemy W s inp.rnd).enemies = s.enemies := by
      unfold spawnEnemy
      dsimp only
      rw [if_neg h]
    have ht : (spawnEnemy W s inp.rnd).enemySpawnTimer = s.enemySpawnTimer + 1 := by
      unfold spawnEnemy
      dsimp only
      rw [if_neg h]
    refine ⟨he, ht, ?_, ?_⟩
    · rw [Update_enemies_length, enemiesToAdvance, he]
    · rw [Update_enemySpawnTimer, ht]

theorem enemy_spawn_witness :
    (∃ x : Int, 0 ≤ x ∧ x < 800 - 80 ∧
      (spawnEnemy 800 spawnDueGame sampleInput.rnd).enemies =
        spawnDueGame.enemies ++ [⟨⟨x, 0, 80, 60⟩, true⟩] ∧
      (spawnEnemy 800 spawnDueGame sampleInput.rnd).enemySpawnTimer = 0 ∧
      (Update 800 600 spawnDueGame sampleInput).enemies.length =
        spawnDueGame.enemies.length + 1 ∧
      (Update 800 600 spawnDueGame sampleInput).enemySpawnTimer = 0) ∧
    ((spawnEnemy 800 bottomGame sampleInput.rnd).enemies = bottomGame.enemies ∧
      (spawnEnemy 800 bottomGame sampleInput.rnd).enemySpawnTimer =
        bottomGame.enemySpawnTimer + 1 ∧
      (Update 800 600 bottomGame sampleInput).enemies.length = bottomGame.enemies.length ∧
      (Update 800 600 bottomGame sampleInput).enemySpawnTimer =
        bottomGame.enemySpawnTimer + 1) :=
  ⟨(enemy_spawn 800 600 spawnDueGame sampleInput (by decide)).1 (by decide),
    (enemy_spawn 800 600 bottomGame sampleInput (by decide)).2 (by decide)⟩

/-! ### Fire step (C13) and bullet advance (C18) -/

theorem beforeFire_fields (W H : Int) (s : Game) (inp : Input) :
    (beforeFire W H s inp).bullets = s.bullets ∧
    (beforeFire W H s inp).lastBulletTime = s.lastBulletTime :=
  beforeFire_bullets W H s inp

theorem u32add_le (a b : Nat) : u32add a b ≤ a + b := Nat.mod_le _ _

/-- What "Fire bullet" does when the button is held and the deadline has passed. -/
theorem beforeSpawn_fired (W H : Int) (s : Game) (inp : Input)
    (hm : inp.mouse &&& SDL_BUTTON SDL_BUTTON_LEFT ≠ 0)
    (ht : inp.currentTime > s.lastBulletTime + fireCooldown) :
    (beforeSpawn W H s inp).bullets =
      s.bullets ++ [⟨⟨(Update W H s inp).player.x + 45, (Update W H s inp).player.y, 10, 40⟩,
        true⟩] ∧
    (beforeSpawn W H s inp).lastBulletTime = inp.currentTime := by
  obtain ⟨h1, h2⟩ := beforeFire_fields W H s inp
  have hc : inp.mouse &&& SDL_BUTTON SDL_BUTTON_LEFT ≠ 0 ∧
      inp.currentTime > u32add (beforeFire W H s inp).lastBulletTime fireCooldown := by
    refine ⟨hm, ?_⟩
    rw [h2]
    exact lt_of_le_of_lt (u32add_le _ _) ht
  have hx : ∀ x : Int, x + Int.tdiv PLAYER_SIZE 2 - Int.tdiv BULLET_WIDTH 2 = x + 45 := by
    intro x
    rw [tdiv_PLAYER_SIZE, tdiv_BULLET_WIDTH]
    omega
  rw [beforeSpawn_eq, Update_player_eq]
  unfold fireBullet
  rw [if_pos hc]
  dsimp only
  rw [h1, hx]
  exact ⟨rfl, rfl⟩

/-- What "Fire bullet" does when it does not fire. -/
theorem beforeSpawn_not_fired (W H : Int) (s : Game) (inp : Input)
    (h : ¬ (inp.mouse &&& SDL_BUTTON SDL_BUTTON_LEFT ≠ 0 ∧
      inp.currentTime > u32add s.lastBulletTime fireCooldown)) :
    (beforeSpawn W H s inp).bullets = s.bullets ∧
    (beforeSpawn W H s inp).lastBulletTime = s.lastBulletTime := by
  obtain ⟨h1, h2⟩ := beforeFire_fields W H s inp
  rw [beforeSpawn_eq]
  unfold fireBullet
  rw [h2, if_neg h]
  exact ⟨h1, h2⟩

/-- C13, counterexample: a shot at 1000 ms, then an `Update` at 1150 ms with the left
button held, so that exactly 150 ms have elapsed: no bullet is appended and
`lastBulletTime` stays at 1000. -/
theorem fire_step_counterexample :
    (Update 800 600 (initGame 800 600) fireAt1000).lastBulletTime = 1000 ∧
    (Update 800 600 (initGame 800 600) fireAt1000).bullets.length = 1 ∧
    fireAt1150.mouse &&& SDL_BUTTON SDL_BUTTON_LEFT ≠ 0 ∧
    fireAt1150.currentTime - 1000 ≥ 150 ∧
    (Update 800 600 (Update 800 600 (initGame 800 600) fireAt1000) fireAt1150).bullets.length
      = 1 ∧
    (Update 800 600 (Update 800 600 (initGame 800 600) fireAt1000)
      fireAt1150).lastBulletTime = 1000 := by
  decide

/-- C13, amended: when the left button is held and more than 150 ms have elapsed since
the last shot (`c > lastBulletTime + 150`), "Fire bullet" appends exactly one active
bullet at the end of the bullet sequence, with rectangle `(p.x + 45, p.y, 10, 40)` for
`p` the player rectangle after this frame's movement and clamp, so that `Update` ends
with one bullet more and `lastBulletTime = c`; when the button is not held, no bullet
is appended and `lastBulletTime` is unchanged. -/
theorem fire_step (W H : Int) (s : Game) (inp : Input) :
    (inp.mouse &&& SDL_BUTTON SDL_BUTTON_LEFT ≠ 0 →
      inp.currentTime > s.lastBulletTime + fireCooldown →
      (beforeSpawn W H s inp).bullets =
        s.bullets ++ [⟨⟨(Update W H s inp).player.x + 45, (Update W H s inp).player.y,
          10, 40⟩, true⟩] ∧
      (Update W H s inp).bullets.length = s.bullets.length + 1 ∧
      (Update W H s inp).lastBulletTime = inp.currentTime) ∧
    (inp.mouse &&& SDL_BUTTON SDL_BUTTON_LEFT = 0 →
      (beforeSpawn W H s inp).bullets = s.bullets ∧
      (Update W H s inp).bullets.length = s.bullets.length ∧
      (Update W H s inp).lastBulletTime = s.lastBulletTime) := by
  obtain ⟨h1, h2⟩ := Update_fire W H s inp
  constructor
  · intro hm ht
    obtain ⟨h3, h4⟩ := beforeSpawn_fired W H s inp hm ht
    refine ⟨h3, ?_, ?_⟩
    · rw [h1, h3, List.length_append]
      rfl
    · rw [h2, h4]
  · intro hm
    obtain ⟨h3, h4⟩ := beforeSpawn_not_fired W H s inp (fun hc => hc.1 hm)
    refine ⟨h3, ?_, ?_⟩
    · rw [h1, h3]
    · rw [h2, h4]

theorem fire_step_witness :
    ((beforeSpawn 800 600 (Update 800 600 (initGame 800 600) fireAt1000) fireAt1151).bullets =
        (Update 800 600 (initGame 800 600) fireAt1000).bullets ++
          [⟨⟨(Update 800 600 (Update 800 600 (initGame 800 600) fireAt1000)
              fireAt1151).player.x + 45,
            (Update 800 600 (Update 800 600 (initGame 800 600) fireAt1000)
              fireAt1151).player.y, 10, 40⟩, true⟩] ∧
      (Update 800 600 (Update 800 600 (initGame 800 600) fireAt1000)
          fireAt1151).bullets.length =
        (Update 800 600 (initGame 800 600) fireAt1000).bullets.length + 1 ∧
      (Update 800 600 (Update 800 600 (initGame 800 600) fireAt1000)
          fireAt1151).lastBulletTime = fireAt1151.currentTime) ∧
    ((beforeSpawn 800 600 (initGame 800 600) dashAt151).bullets = (initGame 800 600).bullets ∧
      (Update 800 600 (initGame 800 600) dashAt151).bullets.length =
        (initGame 800 600).bullets.length ∧
      (Update 800 600 (initGame 800 600) dashAt151).lastBulletTime =
        (initGame 800 600).lastBulletTime) :=
  ⟨(fire_step 800 600 (Update 800 600 (initGame 800 600) fireAt1000) fireAt1151).1
      (by decide) (by decide),
    (fire_step 800 600 (initGame 800 600) dashAt151).2 (by decide)⟩

theorem updateBullet_active (b : GameObject) (ha : b.active = true) :
    (updateBullet b).rect = { b.rect with y := b.rect.y - 50 } ∧
    ((updateBullet b).active = false ↔ b.rect.y - 50 + 40 < 0) := by
  unfold updateBullet
  rw [if_pos ha]
  dsimp only
  simp only [BULLET_SPEED, BULLET_HEIGHT]
  split_ifs with h
  · exact ⟨rfl, ⟨fun _ => h, fun _ => rfl⟩⟩
  · exact ⟨rfl, ⟨fun h1 => by rw [ha] at h1; exact absurd h1 (by simp), fun h1 => absurd h1 h⟩⟩

theorem updateBullet_inactive (b : GameObject) (ha : b.active = false) :
    updateBullet b = b := by
  unfold updateBullet
  rw [if_neg (by simp [ha])]

/-- C18: in "Update bullets" every active bullet moves up by exactly 50 and becomes
inactive if and only if its new `y + 40` is negative, so a bullet whose bottom edge
arrives exactly at 0 stays active; the loop runs over all bullets, the one fired in
the same `Update` included, so that a bullet fired from the player rectangle `p` (as
it is after movement and clamp) stands at `(p.x + 45, p.y - 50, 10, 40)` when `Update`
ends. -/
theorem bullet_advance (W H : Int) (s : Game) (inp : Input) :
    (∀ b : GameObject, b.active = true →
      (updateBullet b).rect = { b.rect with y := b.rect.y - 50 } ∧
      ((updateBullet b).active = false ↔ b.rect.y - 50 + 40 < 0)) ∧
    (∀ b : GameObject, b.active = true → b.rect.y - 50 + 40 = 0 →
      (updateBullet b).active = true) ∧
    (beforeCollision W H s inp).bullets = (beforeSpawn W H s inp).bullets.map updateBullet ∧
    (inp.mouse &&& SDL_BUTTON SDL_BUTTON_LEFT ≠ 0 →
      inp.currentTime > s.lastBulletTime + fireCooldown →
      ∃ b : GameObject, (Update W H s inp).bullets[s.bullets.length]? = some b ∧
        b.rect = ⟨(Update W H s inp).player.x + 45, (Update W H s inp).player.y - 50,
          10, 40⟩) := by
  refine ⟨updateBullet_active, ?_, beforeCollision_bullets W H s inp, ?_⟩
  · intro b ha h0
    have h := (updateBullet_active b ha).2
    cases hb : (updateBullet b).active with
    | true => rfl
    | false =>
      have := h.1 hb
      omega
  · intro hm ht
    obtain ⟨h3, -⟩ := beforeSpawn_fired W H s inp hm ht
    have hget : ((beforeSpawn W H s inp).bullets.map updateBullet)[s.bullets.length]? =
        some (updateBullet ⟨⟨(Update W H s inp).player.x + 45, (Update W H s inp).player.y,
          10, 40⟩, true⟩) := by
      rw [List.getElem?_map, h3, List.getElem?_append_right (le_refl _)]
      simp
    obtain ⟨b, hb1, hb2⟩ := Deactivates.lookup (collisionLoop_bullets _
      ((enemiesToAdvance W s inp).map (advanceEnemy H))) _ _ hget
    refine ⟨b, by rw [Update_bullets]; exact hb1, ?_⟩
    rw [hb2.1, (updateBullet_active _ rfl).1]

theorem bullet_advance_witness :
    ∃ b : GameObject,
      (Update 800 600 (initGame 800 600) fireAt1000).bullets[(initGame 800 600).bullets.length]?
        = some b ∧
      b.rect = ⟨(Update 800 600 (initGame 800 600) fireAt1000).player.x + 45,
        (Update 800 600 (initGame 800 600) fireAt1000).player.y - 50, 10, 40⟩ :=
  (bullet_advance 800 600 (initGame 800 600) fireAt1000).2.2.2 (by decide) (by decide)

/-! ### Entities are append-only (C16) -/

theorem Deactivates.eq_of_inactive {e e1 : GameObject} (h : Deactivates e e1)
    (ha : e.active = false) : e1 = e := by
  have hact : e1.active = false := by
    cases hact : e1.active with
    | false => rfl
    | true =>
      have := h.2 hact
      rw [ha] at this
      exact absurd this (by simp)
  cases e1 with
  | mk r1 a1 =>
    cases e with
    | mk r a =>
      simp only at hact ha
      have hr : r1 = r := h.1
      rw [hact, ha, hr]

theorem updateBullet_rect (b : GameObject) :
    (updateBullet b).rect.x = b.rect.x ∧ (updateBullet b).rect.w = b.rect.w ∧
    (updateBullet b).rect.h = b.rect.h := by
  unfold updateBullet
  dsimp only
  split_ifs <;> exact ⟨rfl, rfl, rfl⟩

theorem advanceEnemy_rect (H : Int) (e : GameObject) :
    (advanceEnemy H e).rect.x = e.rect.x ∧ (advanceEnemy H e).rect.w = e.rect.w ∧
    (advanceEnemy H e).rect.h = e.rect.h := by
  unfold advanceEnemy
  dsimp only
  split_ifs <;> exact ⟨rfl, rfl, rfl⟩

theorem beforeSpawn_bullets_cases (W H : Int) (s : Game) (inp : Input) :
    (beforeSpawn W H s inp).bullets = s.bullets ∨
    ∃ nb : GameObject, (beforeSpawn W H s inp).bullets = s.bullets ++ [nb] := by
  obtain ⟨h1, -⟩ := beforeFire_fields W H s inp
  rw [beforeSpawn_eq]
  unfold fireBullet
  split_ifs
  · exact Or.inr ⟨_, by dsimp only; rw [h1]⟩
  · exact Or.inl h1

theorem lookup_append_cases {l l1 : List GameObject} (h : l1 = l ∨ ∃ x, l1 = l ++ [x])
    (i : Nat) (e : GameObject) (hi : l[i]? = some e) : l1[i]? = some e := by
  rcases h with h | ⟨x, h⟩
  · rw [h]
    exact hi
  · rw [h, List.getElem?_append_left (List.getElem?_eq_some.mp hi).1]
    exact hi

theorem length_append_cases {l l1 : List GameObject} (h : l1 = l ∨ ∃ x, l1 = l ++ [x]) :
    l1.length = l.length ∨ l1.length = l.length + 1 := by
  rcases h with h | ⟨x, h⟩
  · exact Or.inl (by rw [h])
  · exact Or.inr (by rw [h, List.length_append]; rfl)

theorem enemiesToAdvance_cases (W : Int) (s : Game) (inp : Input) :
    enemiesToAdvance W s inp = s.enemies ∨
    ∃ ne : GameObject, enemiesToAdvance W s inp = s.enemies ++ [ne] := by
  rcases enemiesToAdvance_eq W s inp with h | h
  · exact Or.inl h
  · exact Or.inr ⟨_, h⟩

/-- C16: for every `Update` and every index `i` valid in the bullet (resp. enemy)
sequence before it, the entity at index `i` afterwards has the same `x`, width and
height, and is the very same entity if it was inactive before; and the sequence
afterwards has the old length or one more, so it is the old entities in their order
followed by at most one new entity. -/
theorem entities_append_only (W H : Int) (s : Game) (inp : Input) :
    (∀ (i : Nat) (e : GameObject), s.bullets[i]? = some e →
      ∃ e1, (Update W H s inp).bullets[i]? = some e1 ∧ e1.rect.x = e.rect.x ∧
        e1.rect.w = e.rect.w ∧ e1.rect.h = e.rect.h ∧ (e.active = false → e1 = e)) ∧
    ((Update W H s inp).bullets.length = s.bullets.length ∨
      (Update W H s inp).bullets.length = s.bullets.length + 1) ∧
    (∀ (i : Nat) (e : GameObject), s.enemies[i]? = some e →
      ∃ e1, (Update W H s inp).enemies[i]? = some e1 ∧ e1.rect.x = e.rect.x ∧
        e1.rect.w = e.rect.w ∧ e1.rect.h = e.rect.h ∧ (e.active = false → e1 = e)) ∧
    ((Update W H s inp).enemies.length = s.enemies.length ∨
      (Update W H s inp).enemies.length = s.enemies.length + 1) := by
  refine ⟨?_, ?_, ?_, ?_⟩
  · intro i e hi
    have h1 := lookup_append_cases (beforeSpawn_bullets_cases W H s inp) i e hi
    have h2 : ((beforeSpawn W H s inp).bullets.map updateBullet)[i]? =
        some (updateBullet e) := by
      rw [List.getElem?_map, h1]
      rfl
    obtain ⟨e1, h3, h4⟩ := Deactivates.lookup (collisionLoop_bullets _
      ((enemiesToAdvance W s inp).map (advanceEnemy H))) i _ h2
    obtain ⟨r1, r2, r3⟩ := updateBullet_rect e
    refine ⟨e1, by rw [Update_bullets]; exact h3, ?_, ?_, ?_, ?_⟩
    · rw [h4.1, r1]
    · rw [h4.1, r2]
    · rw [h4.1, r3]
    · intro ha
      rw [updateBullet_inactive e ha] at h4
      exact h4.eq_of_inactive ha
  · rw [(Update_fire W H s inp).1]
    exact length_append_cases (beforeSpawn_bullets_cases W H s inp)
  · intro i e hi
    have h1 := lookup_append_cases (enemiesToAdvance_cases W s inp) i e hi
    have h2 : ((enemiesToAdvance W s inp).map (advanceEnemy H))[i]? =
        some (advanceEnemy H e) := by
      rw [List.getElem?_map, h1]
      rfl
    obtain ⟨e1, h3, h4⟩ := Deactivates.lookup (collisionLoop_deactivates
      ((beforeSpawn W H s inp).bullets.map updateBullet) _) i _ h2
    obtain ⟨r1, r2, r3⟩ := advanceEnemy_rect H e
    refine ⟨e1, by rw [Update_enemies_eq]; exact h3, ?_, ?_, ?_, ?_⟩
    · rw [h4.1, r1]
    · rw [h4.1, r2]
    · rw [h4.1, r3]
    · intro ha
      rw [advanceEnemy_of_inactive H e ha] at h4
      exact h4.eq_of_inactive ha
  · rw [Update_enemies_length]
    exact length_append_cases (enemiesToAdvance_cases W s inp)

theorem entities_append_only_witness :
    ∃ e1, (Update 800 600 lostGame sampleInput).enemies[0]? = some e1 ∧
      e1.rect.x = (10 : Int) ∧ e1.rect.w = (80 : Int) ∧ e1.rect.h = (60 : Int) ∧
      ((false : Bool) = false → e1 = ⟨⟨10, 602, 80, 60⟩, false⟩) :=
  (entities_append_only 800 600 lostGame sampleInput).2.2.1 0 ⟨⟨10, 602, 80, 60⟩, false⟩
    (by decide)

/-! ### Movement (C17) -/

theorem movePlayer_position (g : Game) (keys : Nat → Bool) :
    (movePlayer g keys).player.x =
      g.player.x + (if g.dashing = true then DASH_SPEED else PLAYER_SPEED) *
        (held (keys SDL_SCANCODE_D) - held (keys SDL_SCANCODE_A)) ∧
    (movePlayer g keys).player.y =
      g.player.y + (if g.dashing = true then DASH_SPEED else PLAYER_SPEED) *
        (held (keys SDL_SCANCODE_S) - held (keys SDL_SCANCODE_W)) := by
  unfold movePlayer held
  dsimp only
  generalize (if g.dashing = true then DASH_SPEED else PLAYER_SPEED) = v
  cases keys SDL_SCANCODE_A <;> cases keys SDL_SCANCODE_D <;>
    cases keys SDL_SCANCODE_W <;> cases keys SDL_SCANCODE_S <;>
    simp only [Bool.false_eq_true, if_true, if_false] <;>
    constructor <;> ring

/-- C17: after `Update` the player stands at
`x1 = max 0 (min (x + v * ([D] - [A])) (W - 100))` and
`y1 = max 0 (min (y + v * ([S] - [W])) (H - 100))`, where `v` is 60 if `dashing` is
true right after "Dash logic" of this `Update` and 10 otherwise; with both keys of an
axis held, a coordinate that is within bounds stays as it is. -/
theorem movement (W H : Int) (s : Game) (inp : Input) :
    (Update W H s inp).player.x =
      max 0 (min (s.player.x + moveSpeedOf s inp *
        (held (inp.keys SDL_SCANCODE_D) - held (inp.keys SDL_SCANCODE_A))) (W - 100)) ∧
    (Update W H s inp).player.y =
      max 0 (min (s.player.y + moveSpeedOf s inp *
        (held (inp.keys SDL_SCANCODE_S) - held (inp.keys SDL_SCANCODE_W))) (H - 100)) ∧
    (moveSpeedOf s inp = 60 ∨ moveSpeedOf s inp = 10) ∧
    (inp.keys SDL_SCANCODE_A = true → inp.keys SDL_SCANCODE_D = true →
      0 ≤ s.player.x → s.player.x ≤ W - 100 → (Update W H s inp).player.x = s.player.x) ∧
    (inp.keys SDL_SCANCODE_W = true → inp.keys SDL_SCANCODE_S = true →
      0 ≤ s.player.y → s.player.y ≤ H - 100 → (Update W H s inp).player.y = s.player.y) := by
  obtain ⟨mx, my⟩ := movePlayer_position (dashLogic s inp.currentTime inp.mouse) inp.keys
  have hp : (dashLogic s inp.currentTime inp.mouse).player = s.player := dashLogic_player _ _ _
  have hx : (Update W H s inp).player.x =
      max 0 (min (s.player.x + moveSpeedOf s inp *
        (held (inp.keys SDL_SCANCODE_D) - held (inp.keys SDL_SCANCODE_A))) (W - 100)) := by
    rw [Update_player]
    simp only [clampPlayer, endDash_player, PLAYER_SIZE]
    rw [mx, hp]
    rfl
  have hy : (Update W H s inp).player.y =
      max 0 (min (s.player.y + moveSpeedOf s inp *
        (held (inp.keys SDL_SCANCODE_S) - held (inp.keys SDL_SCANCODE_W))) (H - 100)) := by
    rw [Update_player]
    simp only [clampPlayer, endDash_player, PLAYER_SIZE]
    rw [my, hp]
    rfl
  refine ⟨hx, hy, ?_, ?_, ?_⟩
  · unfold moveSpeedOf
    split_ifs
    · exact Or.inl rfl
    · exact Or.inr rfl
  · intro ha hd h0 h1
    rw [hx, ha, hd]
    simp only [held, if_true, sub_self, mul_zero, add_zero]
    omega
  · intro hw hs h0 h1
    rw [hy, hw, hs]
    simp only [held, if_true, sub_self, mul_zero, add_zero]
    omega

theorem movement_witness :
    (Update 800 600 (initGame 800 600) allKeysInput).player.x = (initGame 800 600).player.x ∧
    (Update 800 600 (initGame 800 600) allKeysInput).player.y = (initGame 800 600).player.y :=
  ⟨(movement 800 600 (initGame 800 600) allKeysInput).2.2.2.1 rfl rfl (by decide) (by decide),
    (movement 800 600 (initGame 800 600) allKeysInput).2.2.2.2 rfl rfl (by decide)
      (by decide)⟩

/-! ### Restart (C19) -/

theorem handleEvent_restart (W H : Int) (s : Game) (e : SDL_Event)
    (hover : s.gameOver = true) (hk : e.type = SDL_KEYDOWN) (hr : e.sym = SDLK_r) :
    handleEvent W H s e = resetGame { s with gameOver := false } W H := by
  have hne : ¬ (e.type = SDL_QUIT ∨ (e.type = SDL_KEYDOWN ∧ e.sym = SDLK_ESCAPE)) := by
    rw [hk, hr]
    decide
  simp only [handleEvent]
  rw [if_neg hne, if_pos ⟨hover, hk, hr⟩]

/-- C19: handling the restart key in a game-over state keeps `enemySpawnTimer`,
`lastBulletTime`, `dashing`, `dashStartTime`, `lastDashTime` (and `quit`) as they were;
the resulting state is the state on loop entry exactly when those fields have their
initial values. -/
theorem restart_keeps_timers (W H : Int) (s : Game) (e : SDL_Event)
    (hover : s.gameOver = true) (hk : e.type = SDL_KEYDOWN) (hr : e.sym = SDLK_r) :
    (handleEvent W H s e).enemySpawnTimer = s.enemySpawnTimer ∧
    (handleEvent W H s e).lastBulletTime = s.lastBulletTime ∧
    (handleEvent W H s e).dashing = s.dashing ∧
    (handleEvent W H s e).dashStartTime = s.dashStartTime ∧
    (handleEvent W H s e).lastDashTime = s.lastDashTime ∧
    (handleEvent W H s e).quit = s.quit ∧
    (handleEvent W H s e = initGame W H ↔
      s.enemySpawnTimer = 0 ∧ s.lastBulletTime = 0 ∧ s.dashing = false ∧
      s.dashStartTime = 0 ∧ s.lastDashTime = 0 ∧ s.quit = false) := by
  rw [handleEvent_restart W H s e hover hk hr]
  refine ⟨rfl, rfl, rfl, rfl, rfl, rfl, ?_⟩
  constructor
  · intro h
    exact ⟨congrArg Game.enemySpawnTimer h, congrArg Game.lastBulletTime h,
      congrArg Game.dashing h, congrArg Game.dashStartTime h, congrArg Game.lastDashTime h,
      congrArg Game.quit h⟩
  · intro ⟨h1, h2, h3, h4, h5, h6⟩
    cases s
    simp only at h1 h2 h3 h4 h5 h6
    simp only [resetGame, initGame, declaredLocals, h1, h2, h3, h4, h5, h6]

theorem restart_keeps_timers_witness :
    (handleEvent 800 600 lostGame ⟨SDL_KEYDOWN, SDLK_r⟩).enemySpawnTimer = 17 ∧
    (handleEvent 800 600 lostGame ⟨SDL_KEYDOWN, SDLK_r⟩).lastBulletTime = 4000 ∧
    handleEvent 800 600 lostGame ⟨SDL_KEYDOWN, SDLK_r⟩ ≠ initGame 800 600 :=
  ⟨(restart_keeps_timers 800 600 lostGame ⟨SDL_KEYDOWN, SDLK_r⟩ rfl rfl rfl).1,
    (restart_keeps_timers 800 600 lostGame ⟨SDL_KEYDOWN, SDLK_r⟩ rfl rfl rfl).2.1,
    fun h => absurd (((restart_keeps_timers 800 600 lostGame ⟨SDL_KEYDOWN, SDLK_r⟩
      rfl rfl rfl).2.2.2.2.2.2.1 h).1) (by decide)⟩

/-! ### The collision loops in closed form -/

theorem collideEnemies_snd (es : List GameObject) :
    ∀ b : GameObject, (collideEnemies b es).2 = es.map (hitBy b.rect) := by
  induction es with
  | nil => intro b; rfl
  | cons e rest ih =>
    intro b
    cases ha : e.active <;> cases hc : checkCollision b.rect e.rect <;>
      simp [collideEnemies, hitBy, hit, ha, hc, ih]

theorem collideEnemies_fst_eq (es : List GameObject) :
    ∀ b : GameObject, (collideEnemies b es).1 =
      if es.any (hit b.rect) = true then { b with active := false } else b := by
  induction es with
  | nil => intro b; rfl
  | cons e rest ih =>
    intro b
    cases ha : e.active <;> cases hc : checkCollision b.rect e.rect <;>
      simp [collideEnemies, hit, ha, hc, ih]

theorem hitBy_deactivates (r : SDL_Rect) (e : GameObject) : Deactivates e (hitBy r e) := by
  unfold hitBy
  split_ifs
  · exact Deactivates.clear e
  · exact Deactivates.refl e

theorem hitBy_of_hit (r : SDL_Rect) (e : GameObject) (h : hit r e = true) :
    (hitBy r e).active = false := by
  unfold hitBy
  rw [if_pos h]

theorem hitBy_of_not_hit (r : SDL_Rect) (e : GameObject) (h : hit r e = false) :
    hitBy r e = e := by
  unfold hitBy
  rw [if_neg (by simp [h])]

/-! ### Collision resolution (C14) -/

theorem Deactivates.lookup_inactive {l1 l2 : List GameObject}
    (h : List.Forall₂ Deactivates l1 l2) (j : Nat) (e : GameObject)
    (hj : l1[j]? = some e) (ha : e.active = false) :
    ∃ e1, l2[j]? = some e1 ∧ e1.active = false ∧ e1.rect = e.rect := by
  obtain ⟨e1, h1, h2⟩ := Deactivates.lookup h j e hj
  have := h2.eq_of_inactive ha
  exact ⟨e1, h1, by rw [this]; exact ha, h2.1⟩

theorem collisionLoop_enemy_hit (bs : List GameObject) :
    ∀ (es : List GameObject) (i j : Nat) (b e : GameObject),
      bs[i]? = some b → es[j]? = some e → b.active = true → e.active = true →
      checkCollision b.rect e.rect = true →
      ∃ e1, (collisionLoop bs es).2[j]? = some e1 ∧ e1.active = false ∧ e1.rect = e.rect := by
  induction bs with
  | nil => intro es i j b e hb; simp at hb
  | cons b0 rest ih =>
    intro es i j b e hb he hba hea hc
    cases i with
    | zero =>
      simp only [List.getElem?_cons_zero, Option.some.injEq] at hb
      subst hb
      have hna : ¬ b0.active = false := by simp [hba]
      simp only [collisionLoop, if_neg hna]
      have h1 : ((collideEnemies b0 es).2)[j]? = some (hitBy b0.rect e) := by
        rw [collideEnemies_snd, List.getElem?_map, he]
        rfl
      have h2 : (hitBy b0.rect e).active = false :=
        hitBy_of_hit _ _ (by simp [hit, hea, hc])
      obtain ⟨e1, h3, h4, h5⟩ :=
        Deactivates.lookup_inactive (collisionLoop_deactivates rest _) j _ h1 h2
      exact ⟨e1, h3, h4, h5.trans (hitBy_deactivates b0.rect e).1⟩
    | succ i =>
      simp only [List.getElem?_cons_succ] at hb
      simp only [collisionLoop]
      split_ifs with h0
      · exact ih es i j b e hb he hba hea hc
      · have h1 : ((collideEnemies b0 es).2)[j]? = some (hitBy b0.rect e) := by
          rw [collideEnemies_snd, List.getElem?_map, he]
          rfl
        cases hh : hit b0.rect e with
        | true =>
          have h2 : (hitBy b0.rect e).active = false := hitBy_of_hit _ _ hh
          obtain ⟨e1, h3, h4, h5⟩ :=
            Deactivates.lookup_inactive (collisionLoop_deactivates rest _) j _ h1 h2
          exact ⟨e1, h3, h4, h5.trans (hitBy_deactivates b0.rect e).1⟩
        | false =>
          rw [hitBy_of_not_hit _ _ hh] at h1
          exact ih _ i j b e hb h1 hba hea hc

theorem collisionLoop_bullet_hit (bs : List GameObject) :
    ∀ (es : List GameObject) (i j : Nat) (b e : GameObject),
      bs[i]? = some b → es[j]? = some e → b.active = true → e.active = true →
      checkCollision b.rect e.rect = true →
      (∀ (k : Nat) (b0 : GameObject), k < i → bs[k]? = some b0 → b0.active = true →
        checkCollision b0.rect e.rect = false) →
      ∃ b1, (collisionLoop bs es).1[i]? = some b1 ∧ b1.active = false ∧ b1.rect = b.rect := by
  induction bs with
  | nil => intro es i j b e hb; simp at hb
  | cons b0 rest ih =>
    intro es i j b e hb he hba hea hc hfirst
    cases i with
    | zero =>
      simp only [List.getElem?_cons_zero, Option.some.injEq] at hb
      subst hb
      have hna : ¬ b0.active = false := by simp [hba]
      have hany : es.any (hit b0.rect) = true :=
        List.any_eq_true.mpr ⟨e, List.getElem?_mem he, by simp [hit, hea, hc]⟩
      simp only [collisionLoop, if_neg hna, List.getElem?_cons_zero, collideEnemies_fst_eq,
        if_pos hany]
      exact ⟨_, rfl, rfl, rfl⟩
    | succ i =>
      simp only [List.getElem?_cons_succ] at hb
      have hrest : ∀ (k : Nat) (b1 : GameObject), k < i → rest[k]? = some b1 →
          b1.active = true → checkCollision b1.rect e.rect = false := by
        intro k b1 hk hb1 ha1
        exact hfirst (k + 1) b1 (by omega) (by simpa using hb1) ha1
      simp only [collisionLoop]
      split_ifs with h0
      · simp only [List.getElem?_cons_succ]
        exact ih es i j b e hb he hba hea hc hrest
      · simp only [List.getElem?_cons_succ]
        have hact : b0.active = true := by
          cases h : b0.active with
          | true => rfl
          | false => exact absurd h h0
        have hno : hit b0.rect e = false := by
          simp [hit, hfirst 0 b0 (by omega) (by simp) hact]
        have h1 : ((collideEnemies b0 es).2)[j]? = some e := by
          rw [collideEnemies_snd, List.getElem?_map, he]
          simp [hitBy_of_not_hit _ _ hno]
        exact ih _ i j b e hb h1 hba hea hc hrest

theorem Update_quit (W H : Int) (s : Game) (inp : Input) : (Update W H s inp).quit = s.quit := by
  have h1 : ∀ (g : Game) (t m : Nat), (dashLogic g t m).quit = g.quit := by
    intro g t m
    unfold dashLogic
    dsimp only
    split_ifs <;> rfl
  have h2 : ∀ (g : Game) (t : Nat), (endDash g t).quit = g.quit := by
    intro g t
    unfold endDash
    split_ifs <;> rfl
  have h3 : ∀ (g : Game) (t m : Nat), (fireBullet g t m).quit = g.quit := by
    intro g t m
    unfold fireBullet
    split_ifs <;> rfl
  have h4 : ∀ (g : Game) (r : Nat), (spawnEnemy W g r).quit = g.quit := by
    intro g r
    unfold spawnEnemy
    dsimp only
    split_ifs <;> rfl
  have h5 : (Update W H s inp).quit =
      (spawnEnemy W (beforeSpawn W H s inp) inp.rnd).quit := rfl
  rw [h5, h4, beforeSpawn_eq, h3]
  exact (h2 _ _).trans (h1 _ _ _)

theorem frame_no_events (W H : Int) (s : Game) (inp : Input) (he : inp.events = [])
    (hg : s.gameOver = false) : frame W H s inp = Update W H s inp := by
  unfold frame pollEvents
  rw [he]
  simp only [List.foldl_nil]
  rw [if_pos hg]

theorem frame_quit_no_events (W H : Int) (s : Game) (inp : Input) (he : inp.events = []) :
    (frame W H s inp).quit = s.quit := by
  unfold frame pollEvents
  rw [he]
  simp only [List.foldl_nil]
  split_ifs
  · exact Update_quit W H s inp
  · rfl

theorem runFrames_reachable (W H : Int) (inps : List Input) :
    ∀ s : Game, Reachable W H s → s.quit = false →
      (∀ inp ∈ inps, inp.events = [] ∧ inp.currentTime < UINT32_MOD) →
      Reachable W H (runFrames W H s inps) ∧ (runFrames W H s inps).quit = false := by
  induction inps with
  | nil => intro s hs hq _; exact ⟨hs, hq⟩
  | cons inp rest ih =>
    intro s hs hq hall
    obtain ⟨h1, h2⟩ := hall inp (List.mem_cons_self inp rest)
    have hq1 : (frame W H s inp).quit = false := by
      rw [frame_quit_no_events W H s inp h1]
      exact hq
    exact ih (frame W H s inp) (Reachable.step s inp hs hq h2) hq1
      (fun i hi => hall i (List.mem_cons_of_mem inp hi))

set_option maxRecDepth 100000 in
/-- C14, counterexample: sixty iterations (a shot in iteration 52, a step up and a
second shot in iteration 53) lead to a reachable state from which iteration 61 spawns
an enemy at `(360, 2, 80, 60)`; when its collision pass starts, the bullets
`(395, -10, 10, 40)` and `(395, 30, 10, 40)` and the enemy are all active and both
bullets intersect the enemy; after the pass the first bullet and the enemy are
inactive, and the second bullet is still active. -/
theorem collision_resolution_counterexample :
    Reachable 800 600 afterTwoShots ∧
    frame 800 600 afterTwoShots (quietInput 12200) =
      collisionPass (beforeCollision 800 600 afterTwoShots (quietInput 12200)) ∧
    (beforeCollision 800 600 afterTwoShots (quietInput 12200)).bullets =
      [⟨⟨395, -10, 10, 40⟩, true⟩, ⟨⟨395, 30, 10, 40⟩, true⟩] ∧
    (beforeCollision 800 600 afterTwoShots (quietInput 12200)).enemies =
      [⟨⟨360, 2, 80, 60⟩, true⟩] ∧
    checkCollision ⟨395, -10, 10, 40⟩ ⟨360, 2, 80, 60⟩ = true ∧
    checkCollision ⟨395, 30, 10, 40⟩ ⟨360, 2, 80, 60⟩ = true ∧
    (collisionPass (beforeCollision 800 600 afterTwoShots (quietInput 12200))).bullets =
      [⟨⟨395, -10, 10, 40⟩, false⟩, ⟨⟨395, 30, 10, 40⟩, true⟩] ∧
    (collisionPass (beforeCollision 800 600 afterTwoShots (quietInput 12200))).enemies =
      [⟨⟨360, 2, 80, 60⟩, false⟩] := by
  refine ⟨(runFrames_reachable 800 600 twoShots _ Reachable.init rfl (by decide)).1,
    (frame_no_events 800 600 afterTwoShots _ rfl (by decide)).trans
      (Update_eq_collisionPass 800 600 afterTwoShots _), ?_, ?_, ?_, ?_, ?_, ?_⟩ <;> decide

/-- C14, amended: if a bullet and an enemy are both active when the collision pass
starts and their rectangles intersect, then the enemy is inactive after the pass; and
the bullet is inactive after the pass as well provided no active bullet before it in
the bullet sequence intersects the same enemy (such a bullet takes the enemy first,
and an enemy that is already inactive is skipped). Rectangles are not changed. -/
theorem collision_resolution (s : Game) (i j : Nat) (b e : GameObject)
    (hb : s.bullets[i]? = some b) (he : s.enemies[j]? = some e)
    (hba : b.active = true) (hea : e.active = true)
    (hc : checkCollision b.rect e.rect = true) :
    (∃ e1, (collisionPass s).enemies[j]? = some e1 ∧ e1.active = false ∧
      e1.rect = e.rect) ∧
    ((∀ (k : Nat) (b0 : GameObject), k < i → s.bullets[k]? = some b0 → b0.active = true →
        checkCollision b0.rect e.rect = false) →
      ∃ b1, (collisionPass s).bullets[i]? = some b1 ∧ b1.active = false ∧
        b1.rect = b.rect) :=
  ⟨collisionLoop_enemy_hit s.bullets s.enemies i j b e hb he hba hea hc,
    collisionLoop_bullet_hit s.bullets s.enemies i j b e hb he hba hea hc⟩

theorem collision_resolution_witness :
    (∃ e1, (collisionPass twoBulletsGame).enemies[0]? = some e1 ∧ e1.active = false ∧
      e1.rect = ⟨360, 30, 80, 60⟩) ∧
    (∃ b1, (collisionPass twoBulletsGame).bullets[0]? = some b1 ∧ b1.active = false ∧
      b1.rect = ⟨395, 20, 10, 40⟩) :=
  ⟨(collision_resolution twoBulletsGame 0 0 ⟨⟨395, 20, 10, 40⟩, true⟩
      ⟨⟨360, 30, 80, 60⟩, true⟩ rfl rfl rfl rfl (by decide)).1,
    (collision_resolution twoBulletsGame 0 0 ⟨⟨395, 20, 10, 40⟩, true⟩
      ⟨⟨360, 30, 80, 60⟩, true⟩ rfl rfl rfl rfl (by decide)).2
      (fun k _ hk => absurd hk (Nat.not_lt_zero k))⟩

/-! ### The spawn counter (C20) -/

theorem handleEvent_lists (W H : Int) (s : Game) (e : SDL_Event) :
    (handleEvent W H s e).enemySpawnTimer = s.enemySpawnTimer ∧
    (((handleEvent W H s e).bullets = s.bullets ∧ (handleEvent W H s e).enemies = s.enemies) ∨
      ((handleEvent W H s e).bullets = [] ∧ (handleEvent W H s e).enemies = [])) := by
  unfold handleEvent
  dsimp only
  split_ifs
  · exact ⟨rfl, Or.inr ⟨rfl, rfl⟩⟩
  · exact ⟨rfl, Or.inl ⟨rfl, rfl⟩⟩
  · exact ⟨rfl, Or.inr ⟨rfl, rfl⟩⟩
  · exact ⟨rfl, Or.inl ⟨rfl, rfl⟩⟩

theorem pollEvents_lists (W H : Int) (es : List SDL_Event) :
    ∀ s : Game, (pollEvents W H s es).enemySpawnTimer = s.enemySpawnTimer ∧
      (((pollEvents W H s es).bullets = s.bullets ∧ (pollEvents W H s es).enemies = s.enemies) ∨
        ((pollEvents W H s es).bullets = [] ∧ (pollEvents W H s es).enemies = [])) := by
  induction es with
  | nil => intro s; exact ⟨rfl, Or.inl ⟨rfl, rfl⟩⟩
  | cons e rest ih =>
    intro s
    obtain ⟨h1, h2⟩ := handleEvent_lists W H s e
    obtain ⟨h3, h4⟩ := ih (handleEvent W H s e)
    have hp : pollEvents W H s (e :: rest) = pollEvents W H (handleEvent W H s e) rest := rfl
    rw [hp]
    refine ⟨h3.trans h1, ?_⟩
    rcases h4 with ⟨a, b⟩ | ⟨a, b⟩
    · rcases h2 with ⟨c, d⟩ | ⟨c, d⟩
      · exact Or.inl ⟨a.trans c, b.trans d⟩
      · exact Or.inr ⟨a.trans c, b.trans d⟩
    · exact Or.inr ⟨a, b⟩

theorem spawnEnemy_timer (W : Int) (s : Game) (r : Nat) :
    (spawnEnemy W s r).enemySpawnTimer =
      if s.enemySpawnTimer + 1 > 60 then 0 else s.enemySpawnTimer + 1 := by
  unfold spawnEnemy
  dsimp only
  split_ifs <;> rfl

/-- An `Update` appends an enemy exactly when the counter plus one exceeds 60. -/
theorem Update_spawns_iff (W H : Int) (s : Game) (inp : Input) :
    (Update W H s inp).enemies.length = s.enemies.length + 1 ↔ s.enemySpawnTimer + 1 > 60 := by
  rw [Update_enemies_length]
  unfold enemiesToAdvance spawnEnemy
  dsimp only
  split_ifs with h
  · simp [h]
  · simp [h]

theorem Update_enemies_length_cases (W H : Int) (s : Game) (inp : Input) :
    (Update W H s inp).enemies.length = s.enemies.length ∨
    (Update W H s inp).enemies.length = s.enemies.length + 1 := by
  rw [Update_enemies_length]
  exact length_append_cases (enemiesToAdvance_cases W s inp)

theorem frame_counted (W H : Int) (s : Game) (inp : Input) (k : Nat)
    (h : s.enemySpawnTimer = ((k % 61 : Nat) : Int) ∧ (k ≤ 60 → s.enemies = [])) :
    (frame W H s inp).enemySpawnTimer =
      (((k + if (pollEvents W H s inp.events).gameOver = false then 1 else 0) % 61 : Nat) : Int) ∧
    ((k + if (pollEvents W H s inp.events).gameOver = false then 1 else 0) ≤ 60 →
      (frame W H s inp).enemies = []) := by
  obtain ⟨ht, he⟩ := h
  obtain ⟨p1, p2⟩ := pollEvents_lists W H inp.events s
  have hp : k ≤ 60 → (pollEvents W H s inp.events).enemies = [] := by
    intro hk
    rcases p2 with ⟨-, b⟩ | ⟨-, b⟩
    · rw [b]
      exact he hk
    · exact b
  unfold frame
  dsimp only
  split_ifs with hg
  · constructor
    · rw [Update_enemySpawnTimer, spawnEnemy_timer, p1, ht]
      split_ifs <;> omega
    · intro hk
      have hlen : ¬ (Update W H (pollEvents W H s inp.events) inp).enemies.length =
          (pollEvents W H s inp.events).enemies.length + 1 := by
        rw [Update_spawns_iff, p1, ht]
        omega
      have h0 := hp (by omega)
      rcases (Update_enemies_length_cases W H (pollEvents W H s inp.events) inp) with h1 | h1
      · rw [h0] at h1
        exact List.length_eq_zero.mp h1
      · exact absurd h1 hlen
  · exact ⟨by rw [p1, ht]; rfl, fun hk => hp (by omega)⟩

theorem ReachableN.reachable {W H : Int} {k : Nat} {s : Game} (h : ReachableN W H k s) :
    Reachable W H s := by
  induction h with
  | init => exact Reachable.init
  | step s inp k _ hq ht ih => exact Reachable.step s inp ih hq ht

theorem Reachable.counted {W H : Int} {s : Game} (h : Reachable W H s) :
    ∃ k : Nat, ReachableN W H k s := by
  induction h with
  | init => exact ⟨0, ReachableN.init⟩
  | step s inp _ hq ht ih =>
    obtain ⟨k, hk⟩ := ih
    exact ⟨_, ReachableN.step s inp k hk hq ht⟩

theorem ReachableN.counter {W H : Int} {k : Nat} {s : Game} (h : ReachableN W H k s) :
    s.enemySpawnTimer = ((k % 61 : Nat) : Int) ∧ (k ≤ 60 → s.enemies = []) := by
  induction h with
  | init => exact ⟨rfl, fun _ => rfl⟩
  | step s inp k _ _ _ ih => exact frame_counted W H s inp k ih

/-- C20: in every reachable state `0 ≤ enemySpawnTimer ≤ 60`; with `k` the number of
`Update`s executed since program start (iterations skipped for game over not counted,
restarts not resetting the count), the counter equals `k mod 61`, there is no enemy
as long as `k ≤ 60`, and the next executed `Update`, the `(k+1)`-th, appends an enemy
if and only if `k + 1` is a multiple of 61. -/
theorem spawn_period (W H : Int) :
    (∀ s : Game, Reachable W H s → 0 ≤ s.enemySpawnTimer ∧ s.enemySpawnTimer ≤ 60) ∧
    (∀ s : Game, Reachable W H s ↔ ∃ k : Nat, ReachableN W H k s) ∧
    (∀ (k : Nat) (s : Game), ReachableN W H k s →
      s.enemySpawnTimer = ((k % 61 : Nat) : Int) ∧ (k ≤ 60 → s.enemies = [])) ∧
    (∀ (k : Nat) (s : Game) (inp : Input), ReachableN W H k s →
      (pollEvents W H s inp.events).gameOver = false →
      (frame W H s inp = Update W H (pollEvents W H s inp.events) inp ∧
        ((Update W H (pollEvents W H s inp.events) inp).enemies.length =
            (pollEvents W H s inp.events).enemies.length + 1 ↔
          (k + 1) % 61 = 0))) := by
  refine ⟨?_, ?_, ?_, ?_⟩
  · intro s hs
    obtain ⟨k, hk⟩ := hs.counted
    rw [hk.counter.1]
    omega
  · intro s
    exact ⟨fun h => h.counted, fun ⟨_, hk⟩ => hk.reachable⟩
  · intro k s hk
    exact hk.counter
  · intro k s inp hk hg
    refine ⟨?_, ?_⟩
    · unfold frame
      dsimp only
      rw [if_pos hg]
    · rw [Update_spawns_iff, (pollEvents_lists W H inp.events s).1, hk.counter.1]
      omega

theorem spawn_period_witness :
    ((initGame 800 600).enemySpawnTimer = ((0 % 61 : Nat) : Int) ∧
      (0 ≤ 60 → (initGame 800 600).enemies = [])) ∧
    (frame 800 600 (initGame 800 600) sampleInput =
        Update 800 600 (pollEvents 800 600 (initGame 800 600) sampleInput.events)
          sampleInput ∧
      ((Update 800 600 (pollEvents 800 600 (initGame 800 600) sampleInput.events)
            sampleInput).enemies.length =
          (pollEvents 800 600 (initGame 800 600) sampleInput.events).enemies.length + 1 ↔
        (0 + 1) % 61 = 0)) :=
  ⟨(spawn_period 800 600).2.2.1 0 (initGame 800 600) ReachableN.init,
    (spawn_period 800 600).2.2.2 0 (initGame 800 600) sampleInput ReachableN.init
      (by decide)⟩

/-! ### One bullet, one enemy (C15): the pass on spaced enemies -/

theorem checkCollision_bounds {a b : SDL_Rect} (h : checkCollision a b = true) :
    a.y < b.y + b.h ∧ b.y < a.y + a.h := by
  unfold checkCollision at h
  rw [SDL_HasIntersection_eq_decide, decide_eq_true_iff] at h
  exact ⟨h.2.2.2.2.2.2.1, h.2.2.2.2.2.2.2⟩

theorem hit_unique (r : SDL_Rect) (e1 e2 : GameObject) (hr : r.h = 40)
    (h1 : e1.rect.h = 60) (h2 : e2.rect.h = 60) (hit1 : hit r e1 = true)
    (hs : e1.active = true → e2.active = true → e2.rect.y + 122 ≤ e1.rect.y) :
    hit r e2 = false := by
  cases hh : hit r e2 with
  | false => rfl
  | true =>
    simp only [hit, Bool.and_eq_true] at hit1 hh
    have b1 := checkCollision_bounds hit1.2
    have b2 := checkCollision_bounds hh.2
    have := hs hit1.1 hh.1
    omega

theorem countP_hit_le_one (r : SDL_Rect) (hr : r.h = 40) (es : List GameObject) :
    Spaced es → (∀ e ∈ es, e.rect.h = 60) → es.countP (hit r) ≤ 1 := by
  induction es with
  | nil => intro _ _; simp
  | cons e rest ih =>
    intro hs hh
    have hp := List.pairwise_cons.mp hs
    have hrest := ih hp.2 (fun x hx => hh x (List.mem_cons_of_mem e hx))
    rw [List.countP_cons]
    split_ifs with h1
    · have h0 : rest.countP (hit r) = 0 := by
        rw [List.countP_eq_zero]
        intro x hx
        have := hit_unique r e x hr (hh e (List.mem_cons_self e rest))
          (hh x (List.mem_cons_of_mem e hx)) h1 (hp.1 x hx)
        simp [this]
      omega
    · omega

theorem activeCount_cons (x : GameObject) (l : List GameObject) :
    activeCount (x :: l) = activeCount l + (if x.active = true then 1 else 0) := by
  unfold activeCount
  rw [List.countP_cons]

theorem activeCount_hitBy (r : SDL_Rect) (es : List GameObject) :
    activeCount (es.map (hitBy r)) + es.countP (hit r) = activeCount es := by
  induction es with
  | nil => rfl
  | cons e rest ih =>
    rw [List.map_cons, activeCount_cons, activeCount_cons, List.countP_cons]
    cases ha : e.active <;> cases hc : checkCollision r e.rect <;>
      simp only [hitBy, hit, ha, hc, Bool.and_self, Bool.and_true, Bool.and_false,
        Bool.false_eq_true, if_true, if_false] <;> omega

theorem any_hit_iff (r : SDL_Rect) (es : List GameObject) :
    es.any (hit r) = true ↔ 0 < es.countP (hit r) := by
  rw [List.countP_pos_iff, List.any_eq_true]

theorem staleHits_eq (es : List GameObject) :
    ∀ b : GameObject,
      staleHits b es = es.countP (hit b.rect) - (if b.active = true then 1 else 0) := by
  induction es with
  | nil => intro b; simp [staleHits]
  | cons e rest ih =>
    intro b
    have h1 := ih b
    have h2 := ih { b with active := false }
    simp only [Bool.false_eq_true, if_false, Nat.sub_zero] at h2
    cases ha : e.active <;> cases hc : checkCollision b.rect e.rect <;>
      cases hb : b.active <;>
      simp [staleHits, hit, ha, hc, hb, List.countP_cons] at h1 h2 ⊢ <;> omega

/-- What one inner loop does to the counts: the enemies lose `countP (hit ..)`
active members, and the bullet is deactivated exactly when that number is positive. -/
theorem collideEnemies_counts (b : GameObject) (es : List GameObject) :
    activeCount (collideEnemies b es).2 + es.countP (hit b.rect) = activeCount es ∧
    (collideEnemies b es).1 =
      if 0 < es.countP (hit b.rect) then { b with active := false } else b := by
  refine ⟨by rw [collideEnemies_snd]; exact activeCount_hitBy _ _, ?_⟩
  rw [collideEnemies_fst_eq]
  by_cases h : 0 < es.countP (hit b.rect)
  · rw [if_pos h, if_pos ((any_hit_iff _ _).mpr h)]
  · rw [if_neg h, if_neg (fun hc => h ((any_hit_iff _ _).mp hc))]

theorem EnemyInv.nil (a : Int) : EnemyInv a [] :=
  ⟨List.Pairwise.nil, fun _ h => absurd h (List.not_mem_nil _),
    fun _ h => absurd h (List.not_mem_nil _)⟩

theorem EnemyInv.map_deactivates {a : Int} {es : List GameObject} (f : GameObject → GameObject)
    (hf : ∀ e, Deactivates e (f e)) (h : EnemyInv a es) : EnemyInv a (es.map f) := by
  obtain ⟨h1, h2, h3⟩ := h
  refine ⟨?_, ?_, ?_⟩
  · unfold Spaced at h1 ⊢
    rw [List.pairwise_map]
    refine h1.imp ?_
    intro x y hxy hx hy
    rw [(hf x).1, (hf y).1]
    exact hxy ((hf x).2 hx) ((hf y).2 hy)
  · intro e he
    obtain ⟨x, hx, rfl⟩ := List.mem_map.mp he
    rw [(hf x).1]
    exact h2 x hx
  · intro e he hact
    obtain ⟨x, hx, rfl⟩ := List.mem_map.mp he
    rw [(hf x).1]
    exact h3 x hx ((hf x).2 hact)

theorem advanceEnemy_active (H : Int) (e : GameObject) (h : (advanceEnemy H e).active = true) :
    e.active = true ∧ (advanceEnemy H e).rect.y = e.rect.y + 2 := by
  cases ha : e.active with
  | false =>
    rw [advanceEnemy_of_inactive H e ha, ha] at h
    exact absurd h (by simp)
  | true =>
    refine ⟨rfl, ?_⟩
    by_cases hy : e.rect.y + ENEMY_SPEED > H
    · rw [advanceEnemy_of_reachesBottom H e ha hy] at h
      exact absurd h (by simp)
    · unfold advanceEnemy
      rw [if_pos ha]
      dsimp only
      rw [if_neg hy]
      rfl

theorem EnemyInv.advance {a : Int} {es : List GameObject} (H : Int) (h : EnemyInv a es) :
    EnemyInv (a + 2) (es.map (advanceEnemy H)) := by
  obtain ⟨h1, h2, h3⟩ := h
  refine ⟨?_, ?_, ?_⟩
  · unfold Spaced at h1 ⊢
    rw [List.pairwise_map]
    refine h1.imp ?_
    intro x y hxy hx hy
    obtain ⟨ax, yx⟩ := advanceEnemy_active H x hx
    obtain ⟨ay, yy⟩ := advanceEnemy_active H y hy
    have := hxy ax ay
    omega
  · intro e he
    obtain ⟨x, hx, rfl⟩ := List.mem_map.mp he
    rw [(advanceEnemy_rect H x).2.2]
    exact h2 x hx
  · intro e he hact
    obtain ⟨x, hx, rfl⟩ := List.mem_map.mp he
    obtain ⟨ax, yx⟩ := advanceEnemy_active H x hact
    have := h3 x hx ax
    omega

theorem collisionLoop_enemyInv (a : Int) (bs : List GameObject) :
    ∀ es : List GameObject, EnemyInv a es → EnemyInv a (collisionLoop bs es).2 := by
  induction bs with
  | nil => intro es h; exact h
  | cons b rest ih =>
    intro es h
    simp only [collisionLoop]
    split_ifs
    · exact ih es h
    · refine ih _ ?_
      rw [collideEnemies_snd]
      exact h.map_deactivates _ (hitBy_deactivates b.rect)

theorem Deactivates.forall_rect {l1 l2 : List GameObject}
    (h : List.Forall₂ Deactivates l1 l2) (P : SDL_Rect → Prop)
    (hP : ∀ x ∈ l1, P x.rect) : ∀ y ∈ l2, P y.rect := by
  induction h with
  | nil => intro y hy; exact absurd hy (List.not_mem_nil _)
  | cons hd _ ih =>
    intro y hy
    rcases List.mem_cons.mp hy with rfl | hy
    · rw [hd.1]
      exact hP _ (List.mem_cons_self _ _)
    · exact ih (fun x hx => hP x (List.mem_cons_of_mem _ hx)) y hy

theorem collisionLoop_bulletInv (bs es : List GameObject) (h : BulletInv bs) :
    BulletInv (collisionLoop bs es).1 :=
  Deactivates.forall_rect (collisionLoop_bullets bs es) (fun r => r.h = 40) h

theorem turns_spec (a : Int) (bs : List GameObject) :
    ∀ es : List GameObject, EnemyInv a es →
      ∀ t ∈ turns bs es, t.1 ∈ bs ∧ t.1.active = true ∧ EnemyInv a t.2 := by
  induction bs with
  | nil => intro es _ t ht; simp [turns] at ht
  | cons b rest ih =>
    intro es h t ht
    simp only [turns] at ht
    split_ifs at ht with h0
    · obtain ⟨t1, t2, t3⟩ := ih es h t ht
      exact ⟨List.mem_cons_of_mem b t1, t2, t3⟩
    · rcases List.mem_cons.mp ht with rfl | ht
      · refine ⟨List.mem_cons_self _ _, ?_, h⟩
        cases hb : b.active with
        | true => rfl
        | false => exact absurd hb h0
      · have h1 : EnemyInv a (collideEnemies b es).2 := by
          rw [collideEnemies_snd]
          exact h.map_deactivates _ (hitBy_deactivates b.rect)
        obtain ⟨t1, t2, t3⟩ := ih _ h1 t ht
        exact ⟨List.mem_cons_of_mem b t1, t2, t3⟩

theorem collisionLoop_balance (a : Int) (bs : List GameObject) :
    ∀ es : List GameObject, EnemyInv a es → BulletInv bs →
      activeCount es + activeCount (collisionLoop bs es).1 =
        activeCount bs + activeCount (collisionLoop bs es).2 := by
  induction bs with
  | nil => intro es _ _; simp [collisionLoop, activeCount]
  | cons b rest ih =>
    intro es he hb
    have hrest : BulletInv rest := fun x hx => hb x (List.mem_cons_of_mem b hx)
    simp only [collisionLoop]
    split_ifs with h0
    · have := ih es he hrest
      simp only [activeCount_cons, h0, Bool.false_eq_true, if_false]
      omega
    · have hact : b.active = true := by
        cases h : b.active with
        | true => rfl
        | false => exact absurd h h0
      obtain ⟨c1, c2⟩ := collideEnemies_counts b es
      have hle := countP_hit_le_one b.rect (hb b (List.mem_cons_self b rest)) es he.1 he.2.1
      have h1 : EnemyInv a (collideEnemies b es).2 := by
        rw [collideEnemies_snd]
        exact he.map_deactivates _ (hitBy_deactivates b.rect)
      have := ih _ h1 hrest
      dsimp only
      by_cases hpos : 0 < es.countP (hit b.rect)
      · rw [c2, if_pos hpos, activeCount_cons, activeCount_cons, if_pos hact,
          if_neg (by simp)]
        omega
      · rw [c2, if_neg hpos, activeCount_cons, activeCount_cons, if_pos hact]
        omega

/-- The collision pass on a state with 40-high bullets and spaced 60-high enemies:
no inner loop deactivates an enemy while its bullet is already inactive, every inner
loop deactivates at most one enemy, and the pass deactivates as many enemies as
bullets. -/
theorem pass_one_for_one (s : Game) (a : Int) (hb : BulletInv s.bullets)
    (he : EnemyInv a s.enemies) :
    (∀ t ∈ turns s.bullets s.enemies,
      staleHits t.1 t.2 = 0 ∧ activeCount t.2 - activeCount (collideEnemies t.1 t.2).2 ≤ 1) ∧
    activeCount s.enemies + activeCount (collisionPass s).bullets =
      activeCount s.bullets + activeCount (collisionPass s).enemies := by
  refine ⟨?_, collisionLoop_balance a s.bullets s.enemies he hb⟩
  intro t ht
  obtain ⟨t1, t2, t3⟩ := turns_spec a s.bullets s.enemies he t ht
  have hle := countP_hit_le_one t.1.rect (hb t.1 t1) t.2 t3.1 t3.2.1
  obtain ⟨c1, -⟩ := collideEnemies_counts t.1 t.2
  refine ⟨?_, by omega⟩
  rw [staleHits_eq, t2]
  simp only [if_true]
  omega

/-! ### One bullet, one enemy (C15): the invariant of the reachable states -/

theorem SpawnInv.init (W H : Int) : SpawnInv (initGame W H) :=
  ⟨le_refl (0 : Int), (by decide : (0 : Int) ≤ 60), fun _ h => absurd h (List.not_mem_nil _),
    EnemyInv.nil _⟩

theorem SpawnInv.pollEvents {s : Game} (W H : Int) (es : List SDL_Event) (h : SpawnInv s) :
    SpawnInv (pollEvents W H s es) := by
  obtain ⟨h1, h2, h3, h4⟩ := h
  obtain ⟨p1, p2⟩ := pollEvents_lists W H es s
  unfold SpawnInv
  rw [p1]
  rcases p2 with ⟨a, b⟩ | ⟨a, b⟩
  · rw [a, b]
    exact ⟨h1, h2, h3, h4⟩
  · rw [a, b]
    exact ⟨h1, h2, fun _ h => absurd h (List.not_mem_nil _), EnemyInv.nil _⟩

theorem spawnEnemy_enemyInv (W : Int) (s : Game) (r : Nat) (h0 : 0 ≤ s.enemySpawnTimer)
    (h60 : s.enemySpawnTimer ≤ 60) (h : EnemyInv (2 * (s.enemySpawnTimer + 1)) s.enemies) :
    0 ≤ (spawnEnemy W s r).enemySpawnTimer ∧ (spawnEnemy W s r).enemySpawnTimer ≤ 60 ∧
    EnemyInv (2 * (spawnEnemy W s r).enemySpawnTimer) (spawnEnemy W s r).enemies := by
  obtain ⟨h1, h2, h3⟩ := h
  unfold spawnEnemy
  dsimp only
  split_ifs with hs
  · dsimp only
    refine ⟨le_refl _, by omega, ?_, ?_, ?_⟩
    · unfold Spaced at h1 ⊢
      rw [List.pairwise_append]
      refine ⟨h1, List.pairwise_singleton _ _, ?_⟩
      intro x hx y hy hxa _
      rw [List.mem_singleton.mp hy]
      have := h3 x hx hxa
      dsimp only
      omega
    · intro e he
      rcases List.mem_append.mp he with he | he
      · exact h2 e he
      · rw [List.mem_singleton.mp he]
        rfl
    · intro e he hact
      rcases List.mem_append.mp he with he | he
      · have := h3 e he hact
        omega
      · rw [List.mem_singleton.mp he]
        exact le_refl _
  · dsimp only
    exact ⟨by omega, by omega, h1, h2, h3⟩

theorem beforeSpawn_bulletInv (W H : Int) (s : Game) (inp : Input) (h : BulletInv s.bullets) :
    BulletInv (beforeSpawn W H s inp).bullets := by
  obtain ⟨h1, -⟩ := beforeFire_fields W H s inp
  rw [beforeSpawn_eq]
  unfold fireBullet
  split_ifs
  · dsimp only
    rw [h1]
    intro b hb
    rcases List.mem_append.mp hb with hb | hb
    · exact h b hb
    · rw [List.mem_singleton.mp hb]
      rfl
  · rw [h1]
    exact h

/-- The state in which "Collision" starts inherits the invariant. -/
theorem beforeCollision_inv (W H : Int) (s : Game) (inp : Input) (h : SpawnInv s) :
    0 ≤ (spawnEnemy W s inp.rnd).enemySpawnTimer ∧
    (spawnEnemy W s inp.rnd).enemySpawnTimer ≤ 60 ∧
    BulletInv (beforeCollision W H s inp).bullets ∧
    EnemyInv (2 * ((spawnEnemy W s inp.rnd).enemySpawnTimer + 1))
      (beforeCollision W H s inp).enemies := by
  obtain ⟨h1, h2, h3, h4⟩ := h
  obtain ⟨a1, a2, a3⟩ := spawnEnemy_enemyInv W s inp.rnd h1 h2 h4
  refine ⟨a1, a2, ?_, ?_⟩
  · rw [beforeCollision_bullets]
    intro b hb
    obtain ⟨x, hx, rfl⟩ := List.mem_map.mp hb
    rw [(updateBullet_rect x).2.2]
    exact beforeSpawn_bulletInv W H s inp h3 x hx
  · rw [beforeCollision_enemies]
    have := EnemyInv.advance H a3
    rw [show 2 * ((spawnEnemy W s inp.rnd).enemySpawnTimer + 1) =
      2 * (spawnEnemy W s inp.rnd).enemySpawnTimer + 2 by ring]
    exact this

theorem SpawnInv.update {s : Game} (W H : Int) (inp : Input) (h : SpawnInv s) :
    SpawnInv (Update W H s inp) := by
  obtain ⟨a1, a2, a3, a4⟩ := beforeCollision_inv W H s inp h
  unfold SpawnInv
  rw [Update_enemySpawnTimer]
  refine ⟨a1, a2, ?_, ?_⟩
  · exact collisionLoop_bulletInv _ _ a3
  · exact collisionLoop_enemyInv _ _ _ a4

theorem SpawnInv.frame {s : Game} (W H : Int) (inp : Input) (h : SpawnInv s) :
    SpawnInv (frame W H s inp) := by
  have h1 := h.pollEvents W H inp.events
  unfold Game2D.frame
  dsimp only
  split_ifs
  · exact h1.update W H inp
  · exact h1

theorem Reachable.spawnInv {W H : Int} {s : Game} (h : Reachable W H s) : SpawnInv s := by
  induction h with
  | init => exact SpawnInv.init W H
  | step s inp _ _ _ ih => exact ih.frame W H inp

theorem Deactivates.activeCount_le {l1 l2 : List GameObject}
    (h : List.Forall₂ Deactivates l1 l2) : activeCount l2 ≤ activeCount l1 := by
  induction h with
  | nil => exact le_refl _
  | @cons a b _ _ hd _ ih =>
    rw [activeCount_cons, activeCount_cons]
    cases hb : b.active with
    | false =>
      simp only [Bool.false_eq_true, if_false]
      omega
    | true =>
      rw [hd.2 hb]
      simp only [if_true]
      omega

/-- C15: in the collision pass of every loop iteration that runs `Update` from a
reachable state, no enemy is deactivated by a bullet whose flag is already false when
the intersection is tested (`staleHits` is 0 for every inner loop), every bullet
deactivates at most one enemy, and the number of enemies the pass deactivates does not
exceed the number of bullets it deactivates. -/
theorem one_bullet_one_enemy (W H : Int) (s : Game) (inp : Input)
    (hs : Reachable W H s) (hg : (pollEvents W H s inp.events).gameOver = false) :
    frame W H s inp = collisionPass (passInput W H s inp) ∧
    (∀ t ∈ turns (passInput W H s inp).bullets (passInput W H s inp).enemies,
      staleHits t.1 t.2 = 0 ∧
      activeCount t.2 - activeCount (collideEnemies t.1 t.2).2 ≤ 1) ∧
    activeCount (collisionPass (passInput W H s inp)).enemies ≤
      activeCount (passInput W H s inp).enemies ∧
    activeCount (collisionPass (passInput W H s inp)).bullets ≤
      activeCount (passInput W H s inp).bullets ∧
    activeCount (passInput W H s inp).enemies -
        activeCount (collisionPass (passInput W H s inp)).enemies ≤
      activeCount (passInput W H s inp).bullets -
        activeCount (collisionPass (passInput W H s inp)).bullets := by
  have hinv := hs.spawnInv.pollEvents W H inp.events
  obtain ⟨-, -, a3, a4⟩ := beforeCollision_inv W H _ inp hinv
  obtain ⟨p1, p2⟩ := pass_one_for_one (passInput W H s inp) _ a3 a4
  have m1 : activeCount (collisionPass (passInput W H s inp)).enemies ≤
      activeCount (passInput W H s inp).enemies :=
    Deactivates.activeCount_le (collisionLoop_deactivates _ _)
  have m2 : activeCount (collisionPass (passInput W H s inp)).bullets ≤
      activeCount (passInput W H s inp).bullets :=
    Deactivates.activeCount_le (collisionLoop_bullets _ _)
  refine ⟨?_, p1, m1, m2, by omega⟩
  unfold Game2D.frame
  dsimp only
  rw [if_pos hg]
  rfl

set_option maxRecDepth 100000 in
theorem one_bullet_one_enemy_witness :
    activeCount (passInput 800 600 afterTwoShots (quietInput 12200)).enemies -
        activeCount (collisionPass (passInput 800 600 afterTwoShots
          (quietInput 12200))).enemies ≤
      activeCount (passInput 800 600 afterTwoShots (quietInput 12200)).bullets -
        activeCount (collisionPass (passInput 800 600 afterTwoShots
          (quietInput 12200))).bullets :=
  (one_bullet_one_enemy 800 600 afterTwoShots (quietInput 12200)
    (runFrames_reachable 800 600 twoShots _ Reachable.init rfl (by decide)).1
    (by decide)).2.2.2.2

/-- Without the spacing the pass alone does not limit a bullet to one enemy: the inner
loop neither tests the bullet's flag again nor stops at the first hit, so on a state
with one bullet over two overlapping enemies (a state no run reaches) the bullet
deactivates both, the second one while its own flag is already false. -/
theorem pass_without_spacing :
    turns overlapGame.bullets overlapGame.enemies =
      [(⟨⟨395, 50, 10, 40⟩, true⟩, overlapGame.enemies)] ∧
    staleHits ⟨⟨395, 50, 10, 40⟩, true⟩ overlapGame.enemies = 1 ∧
    activeCount overlapGame.enemies = 2 ∧
    activeCount (collisionPass overlapGame).enemies = 0 ∧
    activeCount overlapGame.bullets = 1 ∧
    activeCount (collisionPass overlapGame).bullets = 0 ∧
    ¬ Spaced overlapGame.enemies := by
  refine ⟨by decide, by decide, by decide, by decide, by decide, by decide, ?_⟩
  intro h
  have := (List.pairwise_cons.mp h).1 ⟨⟨380, 60, 80, 60⟩, true⟩ (by simp [overlapGame]) rfl rfl
  revert this
  decide

end Game2D
